import Mathlib

/-!
Shallow embedding of the seat-reservation core of the Modex-System repository
(`src/server/storage.ts`, data shapes from `src/shared/schema.ts`).

The database is modelled as an explicit state (`DBState`) holding the rows of
the `shows`, `seats` and `bookings` tables; each storage-layer method becomes a
pure state-passing function.  SQL timestamps are `Nat` instants; the SQL
comparison `locked_until < NOW()` on a NULL column is false, which the
embedding mirrors by an `Option Nat` that compares as `false` when `none`.
Row ids (`gen_random_uuid()` primary keys) are modelled by a fresh-id counter
`nextId` carried in the state, so distinct inserts receive distinct ids.

The `FOR UPDATE NOWAIT` row-lock acquisition can fail only because of another
in-flight transaction; since the embedding executes transactions one at a
time (the serialization the row locks enforce), that environmental failure is
exposed as an explicit `contended` input to `lockSeats` and `attemptBooking`.
Every transaction either commits (the returned state) or rolls back (the
returned state is the input state unchanged), exactly as the `BEGIN` /
`COMMIT` / `ROLLBACK` calls in the source dictate.
-/

namespace Modex

/-- Seat status enum, `seat_status` in `shared/schema.ts`. -/
inductive SeatStatus where
  | AVAILABLE
  | PENDING
  | BOOKED
deriving DecidableEq, Repr

/-- Booking status enum, `booking_status` in `shared/schema.ts`. -/
inductive BookingStatus where
  | PENDING
  | CONFIRMED
  | FAILED
deriving DecidableEq, Repr

/-- Row of the `shows` table. -/
structure ShowRow where
  id : Nat
  name : String
  startTime : Nat
  totalSeats : Nat
  availableSeats : Int
deriving DecidableEq, Repr

/-- Row of the `seats` table. -/
structure Seat where
  id : Nat
  showId : Nat
  seatNumber : Nat
  status : SeatStatus
  lockedUntil : Option Nat
deriving DecidableEq, Repr

/-- Row of the `bookings` table. -/
structure Booking where
  id : Nat
  showId : Nat
  userId : Option Nat
  seatIds : List Nat
  status : BookingStatus
  createdAt : Nat
  expiresAt : Option Nat
deriving DecidableEq, Repr

/-- The whole database state, plus the fresh-id counter modelling
`gen_random_uuid()` primary-key generation. -/
structure DBState where
  shows : List ShowRow
  seats : List Seat
  bookings : List Booking
  nextId : Nat
deriving DecidableEq, Repr

/-- Errors thrown by `DatabaseStorage.attemptBooking`. -/
inductive BookingError where
  | SEATS_LOCKED
  | INVALID_SEATS
  | SEATS_UNAVAILABLE
deriving DecidableEq, Repr

/-- SQL `locked_until < NOW()` / JS `seat.locked_until && new Date(...) < now`:
true exactly when the lock-expiry column is set and lies strictly in the past.
A NULL column makes the comparison false. -/
def seatLockExpired (now : Nat) (s : Seat) : Bool :=
  match s.lockedUntil with
  | some t => t < now
  | none => false

/-- Eligibility test shared by `lockSeats` and `attemptBooking`
(`storage.ts` lines 137 and 260-263): a seat can be acquired when it is
`AVAILABLE`, or `PENDING` with an already-expired lock. -/
def seatFree (now : Nat) (s : Seat) : Bool :=
  s.status == SeatStatus.AVAILABLE ||
    (s.status == SeatStatus.PENDING && seatLockExpired now s)

/-- Lookup used by `getShowById` (`storage.ts` line 66). -/
def getShowById (st : DBState) (id : Nat) : Option ShowRow :=
  st.shows.find? (fun sh => sh.id == id)

/-- The per-seat update of `unlockSeats` (`storage.ts` lines 166-175):
`SET status = AVAILABLE, locked_until = NULL WHERE id = ANY(ids) AND status = PENDING`. -/
def unlockSeatFun (seatIds : List Nat) (s : Seat) : Seat :=
  if seatIds.contains s.id && s.status == SeatStatus.PENDING then
    { s with status := SeatStatus.AVAILABLE, lockedUntil := none }
  else s

/-- `DatabaseStorage.unlockSeats` (`storage.ts` lines 166-175). -/
def unlockSeats (st : DBState) (seatIds : List Nat) : DBState :=
  { st with seats := st.seats.map (unlockSeatFun seatIds) }

/-- `DatabaseStorage.markSeatsAsBooked` (`storage.ts` lines 177-181):
`SET status = BOOKED, locked_until = NULL WHERE id = ANY(ids)`. -/
def markSeatsAsBooked (st : DBState) (seatIds : List Nat) : DBState :=
  { st with seats := st.seats.map (fun s =>
      if seatIds.contains s.id then
        { s with status := SeatStatus.BOOKED, lockedUntil := none }
      else s) }

/-- The per-seat update of `releaseExpiredLocks` (`storage.ts` lines 183-194). -/
def reapSeatFun (now : Nat) (s : Seat) : Seat :=
  if s.status == SeatStatus.PENDING && seatLockExpired now s then
    { s with status := SeatStatus.AVAILABLE, lockedUntil := none }
  else s

/-- `DatabaseStorage.releaseExpiredLocks` (`storage.ts` lines 183-194):
reset every `PENDING` seat whose `locked_until` has passed to `AVAILABLE`,
clear the expiry, and return the number of rows so updated. -/
def releaseExpiredLocks (st : DBState) (now : Nat) : Nat × DBState :=
  ((st.seats.filter (fun s =>
      s.status == SeatStatus.PENDING && seatLockExpired now s)).length,
   { st with seats := st.seats.map (reapSeatFun now) })

/-- `DatabaseStorage.lockSeats` (`storage.ts` lines 127-164).  One
transaction: `SELECT ... FOR UPDATE NOWAIT` over the requested ids restricted
to acquirable seats; if the row count differs from the request length the
transaction rolls back and `false` is returned, otherwise all requested ids
are set to `PENDING` with the given expiry and the transaction commits.  A
`NOWAIT` failure (another transaction holds a row lock) is the `contended`
input; it takes the `catch` path, rolls back and returns `false`. -/
def lockSeats (st : DBState) (seatIds : List Nat) (untl : Nat) (now : Nat)
    (contended : Bool) : Bool × DBState :=
  if contended then (false, st)
  else
    let lockRows := st.seats.filter (fun s =>
      seatIds.contains s.id && seatFree now s)
    if lockRows.length = seatIds.length then
      (true, { st with seats := st.seats.map (fun s =>
        if seatIds.contains s.id then
          { s with status := SeatStatus.PENDING, lockedUntil := some untl }
        else s) })
    else (false, st)

/-- `DatabaseStorage.updateBookingStatus` (`storage.ts` lines 213-219). -/
def updateBookingStatus (st : DBState) (id : Nat) (status : BookingStatus) :
    DBState :=
  { st with bookings := st.bookings.map (fun b =>
      if b.id == id then { b with status := status } else b) }

/-- Predicate of `getExpiredPendingBookings` (`storage.ts` lines 221-229):
`status = PENDING AND expires_at < NOW()` (false on a NULL deadline). -/
def bookingExpired (now : Nat) (b : Booking) : Bool :=
  b.status == BookingStatus.PENDING &&
    match b.expiresAt with
    | some t => t < now
    | none => false

/-- `DatabaseStorage.getExpiredPendingBookings` (`storage.ts` lines 221-229). -/
def getExpiredPendingBookings (st : DBState) (now : Nat) : List Booking :=
  st.bookings.filter (bookingExpired now)

/-- `DatabaseStorage.createSeats` (`storage.ts` lines 117-125): bulk insert of
`count` seats for a show, numbered 1..count, all `AVAILABLE` with no lock
expiry (schema defaults). -/
def createSeats (st : DBState) (showId : Nat) (count : Nat) :
    List Seat × DBState :=
  let newSeats : List Seat := (List.range count).map (fun i =>
    { id := st.nextId + i, showId := showId, seatNumber := i + 1,
      status := SeatStatus.AVAILABLE, lockedUntil := none })
  (newSeats,
   { st with seats := st.seats ++ newSeats, nextId := st.nextId + count })

/-- `DatabaseStorage.createShow` (`storage.ts` lines 79-95): insert the show
with `availableSeats := totalSeats`, then bulk-create its seats. -/
def createShow (st : DBState) (name : String) (startTime : Nat)
    (totalSeats : Nat) : ShowRow × DBState :=
  let sh : ShowRow :=
    { id := st.nextId, name := name, startTime := startTime,
      totalSeats := totalSeats, availableSeats := (totalSeats : Int) }
  let st1 : DBState :=
    { st with shows := st.shows ++ [sh], nextId := st.nextId + 1 }
  (sh, (createSeats st1 sh.id totalSeats).2)

/-- The per-seat update of the success path of `attemptBooking`
(`storage.ts` lines 271-276): `SET status = BOOKED, locked_until = NULL
WHERE id = ANY(ids)`. -/
def bookSeatFun (seatIds : List Nat) (s : Seat) : Seat :=
  if seatIds.contains s.id then
    { s with status := SeatStatus.BOOKED, lockedUntil := none }
  else s

/-- `DatabaseStorage.attemptBooking` (`storage.ts` lines 232-312), one
transaction.  Steps, in source order: (1) `SELECT ... FOR UPDATE NOWAIT` over
the requested ids restricted to this show — a `NOWAIT` lock failure (the
`contended` input) rolls back and throws `SEATS_LOCKED`; (2) if the row count
differs from the request length, roll back and throw `INVALID_SEATS`; (3) if
any locked row is neither `AVAILABLE` nor expired-`PENDING`, roll back and
throw `SEATS_UNAVAILABLE`; (4) otherwise set the requested seats to `BOOKED`,
decrement the show's `available_seats` by the request length, insert a
`CONFIRMED` booking row and commit.  The result pairs the thrown error or
returned booking with the post-transaction state (unchanged on rollback). -/
def attemptBooking (st : DBState) (showId : Nat) (seatIds : List Nat)
    (userId : Option Nat) (now : Nat) (contended : Bool) :
    Except BookingError Booking × DBState :=
  if contended then (Except.error BookingError.SEATS_LOCKED, st)
  else
    let lockRows := st.seats.filter (fun s =>
      seatIds.contains s.id && s.showId == showId)
    if lockRows.length = seatIds.length then
      let unavailableSeats := lockRows.filter (fun s => !seatFree now s)
      if unavailableSeats.length > 0 then
        (Except.error BookingError.SEATS_UNAVAILABLE, st)
      else
        let booking : Booking :=
          { id := st.nextId, showId := showId,
            userId := userId, seatIds := seatIds,
            status := BookingStatus.CONFIRMED, createdAt := now,
            expiresAt := none }
        (Except.ok booking,
         { shows := st.shows.map (fun sh =>
             if sh.id == showId then
               { sh with availableSeats :=
                   sh.availableSeats - (seatIds.length : Int) }
             else sh),
           seats := st.seats.map (bookSeatFun seatIds),
           bookings := st.bookings ++ [booking],
           nextId := st.nextId + 1 })
    else (Except.error BookingError.INVALID_SEATS, st)

/-- Well-formedness of the database: primary keys of seats and shows are
unique (they are `gen_random_uuid()` columns) and every stored id was minted
below the fresh-id counter. -/
def WF (st : DBState) : Prop :=
  (st.seats.map Seat.id).Nodup ∧
  (st.shows.map ShowRow.id).Nodup ∧
  (∀ s ∈ st.seats, s.id < st.nextId ∧ s.showId < st.nextId) ∧
  (∀ sh ∈ st.shows, sh.id < st.nextId)

instance (st : DBState) : Decidable (WF st) := by
  unfold WF
  infer_instance

/-- Number of seats of the given show whose status is `BOOKED`. -/
def bookedCount (st : DBState) (showId : Nat) : Nat :=
  st.seats.countP
    (fun s => s.showId == showId && s.status == SeatStatus.BOOKED)

/-- The counter invariant of claim C3:
`availableSeats = totalSeats - count(seats where status = BOOKED)`
for every show. -/
def counterInv (st : DBState) : Prop :=
  ∀ sh ∈ st.shows,
    sh.availableSeats = (sh.totalSeats : Int) - (bookedCount st sh.id : Int)

instance (st : DBState) : Decidable (counterInv st) := by
  unfold counterInv
  infer_instance

/-- Modelled from the spec: section 4.3 `fail(bookingId)` — the deferred-mode
failure path is not implemented under `src/` (only its storage primitives
`unlockSeats` and `updateBookingStatus` are).  Per the spec it "releases the
associated seats (§4.1 release) and sets the Booking to `FAILED`".  An
unknown booking id is a no-op. -/
def failBooking (st : DBState) (bookingId : Nat) : DBState :=
  match st.bookings.find? (fun b => b.id == bookingId) with
  | some b =>
    updateBookingStatus (unlockSeats st b.seatIds) bookingId
      BookingStatus.FAILED
  | none => st

/-- Modelled from the spec: section 4.4 Sweep 2 — the reaper loop itself is
not under `src/`; per the spec it finds "all Bookings with status `PENDING`
whose expiry deadline has passed" (the `getExpiredPendingBookings` query of
`storage.ts`) and invokes `fail(bookingId)` on each. -/
def reaperSweep2 (st : DBState) (now : Nat) : DBState :=
  (getExpiredPendingBookings st now).foldl
    (fun acc b => failBooking acc b.id) st

/-- One committed operation of the sequences considered by claim C3. -/
inductive Op where
  | opCreateShow : String → Nat → Nat → Op
  | opAttemptBooking : Nat → List Nat → Option Nat → Nat → Bool → Op
  | opLockSeats : List Nat → Nat → Nat → Bool → Op
  | opUnlockSeats : List Nat → Op
  | opReleaseExpiredLocks : Nat → Op
  | opReaperSweep : Nat → Op

/-- Interpretation of one committed operation on the database state. -/
def applyOp (st : DBState) : Op → DBState
  | Op.opCreateShow n t c => (createShow st n t c).2
  | Op.opAttemptBooking sh ids u now c => (attemptBooking st sh ids u now c).2
  | Op.opLockSeats ids untl now c => (lockSeats st ids untl now c).2
  | Op.opUnlockSeats ids => unlockSeats st ids
  | Op.opReleaseExpiredLocks now => (releaseExpiredLocks st now).2
  | Op.opReaperSweep now => reaperSweep2 st now

/-- Interpretation of a sequence of committed operations. -/
def applyOps (st : DBState) (ops : List Op) : DBState := ops.foldl applyOp st

/-- One booking attempt: the arguments of a call to `attemptBooking`,
with `contended` recording whether another in-flight transaction held a row
lock (the `FOR UPDATE NOWAIT` failure). -/
structure Attempt where
  showId : Nat
  seatIds : List Nat
  userId : Option Nat
  now : Nat
  contended : Bool
deriving DecidableEq, Repr

/-- Serial execution of a list of booking attempts — the serialization that
the row-level locks impose on concurrent transactions.  Returns the list of
per-attempt outcomes and the final state. -/
def runAttempts (st : DBState) :
    List Attempt → List (Except BookingError Booking) × DBState
  | [] => ([], st)
  | a :: rest =>
    let r := attemptBooking st a.showId a.seatIds a.userId a.now a.contended
    let rs := runAttempts r.2 rest
    (r.1 :: rs.1, rs.2)

/-- Union (as a list with multiplicity) of the seat sets of all `CONFIRMED`
bookings. -/
def confirmedSeatIds (st : DBState) : List Nat :=
  ((st.bookings.filter
    (fun b => b.status == BookingStatus.CONFIRMED)).map Booking.seatIds).flatten

/-- Invariant used for claim C4: no seat occurs twice across the `CONFIRMED`
bookings, and every seat referenced by a `CONFIRMED` booking is `BOOKED`. -/
def C4Inv (st : DBState) : Prop :=
  (confirmedSeatIds st).Nodup ∧
  ∀ b ∈ st.bookings, b.status = BookingStatus.CONFIRMED →
    ∀ sid ∈ b.seatIds, ∀ s ∈ st.seats, s.id = sid →
      s.status = SeatStatus.BOOKED

instance (st : DBState) : Decidable (C4Inv st) := by
  unfold C4Inv
  infer_instance

/-- A request that names distinct seat ids that all exist in the given
show. -/
def validSelection (st : DBState) (showId : Nat) (sids : List Nat) : Prop :=
  sids.Nodup ∧ ∀ sid ∈ sids, ∃ s ∈ st.seats, s.id = sid ∧ s.showId = showId

instance (st : DBState) (showId : Nat) (sids : List Nat) :
    Decidable (validSelection st showId sids) := by
  unfold validSelection
  infer_instance

/-- Total number of seats confirmed for the given show by a list of attempt
outcomes. -/
def confirmedTotal (rs : List (Except BookingError Booking)) (showId : Nat) :
    Nat :=
  (rs.map (fun r => match r with
    | Except.ok b => if b.showId = showId then b.seatIds.length else 0
    | Except.error _ => 0)).sum

/-- A tiny concrete database used by witnesses: one show with three seats,
seat 3 holding an expired `PENDING` lease. -/
def sampleDB : DBState :=
  { shows := [{ id := 0, name := "show", startTime := 100, totalSeats := 3,
                availableSeats := 3 }],
    seats := [{ id := 1, showId := 0, seatNumber := 1,
                status := SeatStatus.AVAILABLE, lockedUntil := none },
              { id := 2, showId := 0, seatNumber := 2,
                status := SeatStatus.AVAILABLE, lockedUntil := none },
              { id := 3, showId := 0, seatNumber := 3,
                status := SeatStatus.PENDING, lockedUntil := some 5 }],
    bookings := [], nextId := 10 }

/-- Invariant of claim C6: a seat carries a `lockedUntil` expiry exactly when
its status is `PENDING`. -/
def lockInv (st : DBState) : Prop :=
  ∀ s ∈ st.seats, (s.lockedUntil.isSome = true ↔ s.status = SeatStatus.PENDING)

instance (st : DBState) : Decidable (lockInv st) := by
  unfold lockInv
  infer_instance

/-- Simulation relation for the reaper's second sweep: a seat either is
untouched or was `PENDING` and has been released to `AVAILABLE` with its
expiry cleared. -/
def SeatSim (s c : Seat) : Prop :=
  c = s ∨ (s.status = SeatStatus.PENDING ∧
    c = { s with status := SeatStatus.AVAILABLE, lockedUntil := none })

/-- The fields of a booking row that the reaper's second sweep never
changes. -/
def bookingKey (b : Booking) : Nat × List Nat := (b.id, b.seatIds)

/-- A concrete database refuting the literal reading of claim C9: booking 2
is `PENDING` with its deadline (5) already past, but its seat 1 has meanwhile
been `BOOKED` by somebody else, so the sweep fails the booking without
returning the seat to `AVAILABLE`. -/
def reaperDB : DBState :=
  { shows := [{ id := 0, name := "show", startTime := 100, totalSeats := 1,
                availableSeats := 0 }],
    seats := [{ id := 1, showId := 0, seatNumber := 1,
                status := SeatStatus.BOOKED, lockedUntil := none }],
    bookings := [{ id := 2, showId := 0, userId := none, seatIds := [1],
                   status := BookingStatus.PENDING, createdAt := 0,
                   expiresAt := some 5 }],
    nextId := 3 }

/-- A concrete database where the reaper's second sweep does its normal job:
booking 2 is `PENDING` and expired and still holds seat 1 `PENDING`. -/
def reaperDB2 : DBState :=
  { shows := [{ id := 0, name := "show", startTime := 100, totalSeats := 1,
                availableSeats := 1 }],
    seats := [{ id := 1, showId := 0, seatNumber := 1,
                status := SeatStatus.PENDING, lockedUntil := some 5 }],
    bookings := [{ id := 2, showId := 0, userId := none, seatIds := [1],
                   status := BookingStatus.PENDING, createdAt := 0,
                   expiresAt := some 5 }],
    nextId := 3 }

/-! ### General list helper lemmas -/

/-- Mapping commutes with `find?` when the map does not change the predicate. -/
theorem find?_map_invar {α : Type} (f : α → α) (p : α → Bool) (l : List α)
    (h : ∀ x, p (f x) = p x) :
    (l.map f).find? p = (l.find? p).map f := by
  induction l with
  | nil => rfl
  | cons a l ih =>
    simp only [List.map_cons, List.find?]
    rw [h a]
    cases hpa : p a <;> simp [ih]

/-- Counting a disjunction of disjoint boolean predicates splits as a sum. -/
theorem countP_or_disjoint {α : Type} (p q : α → Bool) (l : List α)
    (h : ∀ a ∈ l, ¬(p a = true ∧ q a = true)) :
    l.countP (fun a => p a || q a) = l.countP p + l.countP q := by
  induction l with
  | nil => rfl
  | cons a l ih =>
    have ha := h a (List.mem_cons_self a l)
    have ih' := ih (fun x hx => h x (List.mem_cons_of_mem a hx))
    simp only [List.countP_cons, ih']
    cases hpa : p a <;> cases hqa : q a <;> simp_all <;> omega

/-- A filter over seats restricted to a request list has at most as many rows
as the request list has distinct elements, provided seat ids are unique. -/
theorem filter_contains_length_le (seats : List Seat) (ids : List Nat)
    (P : Seat → Bool) (hnd : (seats.map Seat.id).Nodup) :
    (seats.filter (fun s => ids.contains s.id && P s)).length ≤
      ids.dedup.length := by
  set F := seats.filter (fun s => ids.contains s.id && P s) with hF
  have hsub : F.Sublist seats := List.filter_sublist seats
  have hndF : (F.map Seat.id).Nodup :=
    List.Nodup.sublist (List.Sublist.map Seat.id hsub) hnd
  have hss : (F.map Seat.id) ⊆ ids.dedup := by
    intro x hx
    rcases List.mem_map.mp hx with ⟨s, hsF, rfl⟩
    rcases List.mem_filter.mp hsF with ⟨-, hp⟩
    have hc : ids.contains s.id = true := (Bool.and_eq_true_iff.mp hp).1
    exact List.mem_dedup.mpr (List.mem_of_elem_eq_true hc)
  calc F.length = (F.map Seat.id).length := (List.length_map F Seat.id).symm
    _ ≤ ids.dedup.length :=
        List.Subperm.length_le (List.subperm_of_subset hndF hss)

/-- When the `SELECT ... WHERE id = ANY(request)` row count equals the length
of the request list and seat ids are unique, the request list has no
duplicates, every seat whose id is requested satisfies the row predicate, and
every requested id is realized by a seat satisfying the predicate. -/
theorem lockRows_exact (seats : List Seat) (ids : List Nat) (P : Seat → Bool)
    (hnd : (seats.map Seat.id).Nodup)
    (hlen : (seats.filter (fun s => ids.contains s.id && P s)).length =
      ids.length) :
    ids.Nodup ∧
    (∀ s ∈ seats, ids.contains s.id = true → P s = true) ∧
    (∀ i ∈ ids, ∃ s ∈ seats, s.id = i ∧ P s = true) := by
  set F := seats.filter (fun s => ids.contains s.id && P s) with hF
  have hle1 : F.length ≤ ids.dedup.length :=
    filter_contains_length_le seats ids P hnd
  have hle2 : ids.dedup.length ≤ ids.length :=
    List.Sublist.length_le (List.dedup_sublist ids)
  have hdedup : ids.dedup = ids :=
    List.Sublist.eq_of_length (List.dedup_sublist ids) (by omega)
  have hndids : ids.Nodup := List.dedup_eq_self.mp hdedup
  have hsubl : F.Sublist seats := List.filter_sublist seats
  have hndF : (F.map Seat.id).Nodup :=
    List.Nodup.sublist (List.Sublist.map Seat.id hsubl) hnd
  have hss : (F.map Seat.id) ⊆ ids := by
    intro x hx
    rcases List.mem_map.mp hx with ⟨s, hsF, rfl⟩
    rcases List.mem_filter.mp hsF with ⟨-, hp⟩
    exact List.mem_of_elem_eq_true (Bool.and_eq_true_iff.mp hp).1
  have hperm : (F.map Seat.id).Perm ids := by
    refine List.Subperm.perm_of_length_le (List.subperm_of_subset hndF hss) ?_
    rw [List.length_map]
    omega
  have hreal : ∀ i ∈ ids, ∃ s ∈ seats, s.id = i ∧ P s = true := by
    intro i hi
    have : i ∈ F.map Seat.id := hperm.mem_iff.mpr hi
    rcases List.mem_map.mp this with ⟨s, hsF, rfl⟩
    rcases List.mem_filter.mp hsF with ⟨hs, hp⟩
    exact ⟨s, hs, rfl, (Bool.and_eq_true_iff.mp hp).2⟩
  refine ⟨hndids, ?_, hreal⟩
  intro s hs hc
  rcases hreal s.id (List.mem_of_elem_eq_true hc) with ⟨s', hs', hid, hP⟩
  have : s' = s := List.inj_on_of_nodup_map hnd hs' hs hid
  exact this ▸ hP

/-! ### Facts about the success path of `attemptBooking` -/

/-- The `bookSeatFun` update never changes a seat's id or owning show. -/
theorem bookSeatFun_id (seatIds : List Nat) (s : Seat) :
    (bookSeatFun seatIds s).id = s.id ∧
      (bookSeatFun seatIds s).showId = s.showId := by
  unfold bookSeatFun
  split <;> exact ⟨rfl, rfl⟩

/-- On the success path the `UPDATE shows` statement decrements exactly the
rows whose id matches, so the `find?`-based lookup of the target show sees its
counter decremented by the request length. -/
theorem getShowById_after_book (shs : List ShowRow) (showId : Nat) (n : Int) :
    (shs.map (fun sh =>
        if sh.id == showId then
          { sh with availableSeats := sh.availableSeats - n }
        else sh)).find? (fun sh => sh.id == showId) =
      (shs.find? (fun sh => sh.id == showId)).map
        (fun sh => { sh with availableSeats := sh.availableSeats - n }) := by
  rw [find?_map_invar]
  · cases hfind : shs.find? (fun sh => sh.id == showId) with
    | none => rfl
    | some sh =>
      have hp := List.find?_some hfind
      simp only [Option.map_some']
      rw [if_pos hp]
  · intro sh
    split <;> simp_all

/-- Claim C1 — every call to `attemptBooking` has exactly one of four
outcomes: a returned `CONFIRMED` booking, or one of the thrown errors
`SEATS_LOCKED`, `INVALID_SEATS`, `SEATS_UNAVAILABLE`; on success the returned
booking references the given show and seat list with status `CONFIRMED` and
is a row of the resulting state, every requested seat is `BOOKED` in the
resulting state, and the show's `availableSeats` counter is decremented by
the number of requested seats. -/
theorem spec_C1 (st : DBState) (showId : Nat) (seatIds : List Nat)
    (userId : Option Nat) (now : Nat) (contended : Bool) :
    (∃ b, (attemptBooking st showId seatIds userId now contended).1 =
        Except.ok b ∧
      b.status = BookingStatus.CONFIRMED ∧
      b.showId = showId ∧
      b.seatIds = seatIds ∧
      b ∈ (attemptBooking st showId seatIds userId now contended).2.bookings ∧
      (∀ s ∈ (attemptBooking st showId seatIds userId now contended).2.seats,
        seatIds.contains s.id = true → s.status = SeatStatus.BOOKED) ∧
      getShowById (attemptBooking st showId seatIds userId now contended).2
          showId =
        (getShowById st showId).map
          (fun sh => { sh with availableSeats :=
            sh.availableSeats - (seatIds.length : Int) })) ∨
    (attemptBooking st showId seatIds userId now contended).1 =
      Except.error BookingError.SEATS_LOCKED ∨
    (attemptBooking st showId seatIds userId now contended).1 =
      Except.error BookingError.INVALID_SEATS ∨
    (attemptBooking st showId seatIds userId now contended).1 =
      Except.error BookingError.SEATS_UNAVAILABLE := by
  unfold attemptBooking
  dsimp only
  split
  · right; left; rfl
  · split
    · split
      · right; right; right; rfl
      · left
        refine ⟨_, rfl, rfl, rfl, rfl, ?_, ?_, ?_⟩
        · simp
        · intro s hs hc
          rcases List.mem_map.mp hs with ⟨s0, hs0, rfl⟩
          unfold bookSeatFun
          unfold bookSeatFun at hc
          split at hc <;> simp_all [bookSeatFun]
        · exact getShowById_after_book st.shows showId (seatIds.length : Int)
    · right; right; left; rfl

/-- A transaction of `attemptBooking` either rolls back (identical resulting
state) or commits with a returned booking. -/
theorem attemptBooking_state (st : DBState) (showId : Nat)
    (seatIds : List Nat) (userId : Option Nat) (now : Nat)
    (contended : Bool) :
    (attemptBooking st showId seatIds userId now contended).2 = st ∨
    ∃ b, (attemptBooking st showId seatIds userId now contended).1 =
      Except.ok b := by
  unfold attemptBooking
  dsimp only
  split
  · exact Or.inl rfl
  · split
    · split
      · exact Or.inl rfl
      · exact Or.inr ⟨_, rfl⟩
    · exact Or.inl rfl

/-- Claim C2 — whenever `attemptBooking` ends in an error, the whole
transaction is rolled back: the resulting database state (seats, shows
counter, bookings) is exactly the state before the call. -/
theorem spec_C2 (st : DBState) (showId : Nat) (seatIds : List Nat)
    (userId : Option Nat) (now : Nat) (contended : Bool) (e : BookingError)
    (h : (attemptBooking st showId seatIds userId now contended).1 =
      Except.error e) :
    (attemptBooking st showId seatIds userId now contended).2 = st := by
  rcases attemptBooking_state st showId seatIds userId now contended with
    h2 | ⟨b, hb⟩
  · exact h2
  · rw [h] at hb
    cases hb

/-- Applying `unlockSeatFun` twice is the same as applying it once: the first
application leaves no seat `PENDING` among the targeted ids. -/
theorem unlockSeatFun_idem (ids : List Nat) (s : Seat) :
    unlockSeatFun ids (unlockSeatFun ids s) = unlockSeatFun ids s := by
  obtain ⟨sid, sshow, snum, sstat, slock⟩ := s
  by_cases hmem : sid ∈ ids
  · cases sstat <;> simp [unlockSeatFun, hmem]
  · cases sstat <;> simp [unlockSeatFun, hmem]

/-- Claim C7 — `unlockSeats` transitions a seat back to `AVAILABLE` exactly
when that seat is currently `PENDING` and targeted; any other seat (already
`AVAILABLE`, or `BOOKED`, or not targeted) is left completely unchanged, no
error is possible, shows and bookings are untouched, and releasing twice has
the same effect as releasing once. -/
theorem spec_C7 (st : DBState) (ids : List Nat) :
    List.Forall₂ (fun s s' =>
      (s.status = SeatStatus.PENDING ∧ s.id ∈ ids →
        s' = { s with status := SeatStatus.AVAILABLE, lockedUntil := none }) ∧
      (¬(s.status = SeatStatus.PENDING ∧ s.id ∈ ids) → s' = s))
      st.seats (unlockSeats st ids).seats ∧
    unlockSeats (unlockSeats st ids) ids = unlockSeats st ids ∧
    (unlockSeats st ids).shows = st.shows ∧
    (unlockSeats st ids).bookings = st.bookings := by
  refine ⟨?_, ?_, rfl, rfl⟩
  · show List.Forall₂ _ st.seats (st.seats.map (unlockSeatFun ids))
    rw [List.forall₂_map_right_iff]
    rw [List.forall₂_same]
    intro s _
    obtain ⟨sid, sshow, snum, sstat, slock⟩ := s
    by_cases hmem : sid ∈ ids
    · cases sstat <;> simp [unlockSeatFun, hmem]
    · cases sstat <;> simp [unlockSeatFun, hmem]
  · show unlockSeats { st with seats := st.seats.map (unlockSeatFun ids) }
        ids = unlockSeats st ids
    unfold unlockSeats
    dsimp only
    rw [List.map_map]
    congr 1
    exact List.map_congr_left (fun s _ => unlockSeatFun_idem ids s)

/-- Applying `reapSeatFun` twice is the same as applying it once. -/
theorem reapSeatFun_idem (now : Nat) (s : Seat) :
    reapSeatFun now (reapSeatFun now s) = reapSeatFun now s := by
  obtain ⟨sid, sshow, snum, sstat, slock⟩ := s
  cases sstat <;> cases slock <;>
    simp [reapSeatFun, seatLockExpired] <;> (try split) <;> simp_all

/-- Once reaped, a seat no longer matches the reap predicate. -/
theorem reapSeatFun_not_expired (now : Nat) (s : Seat) :
    ((reapSeatFun now s).status == SeatStatus.PENDING &&
      seatLockExpired now (reapSeatFun now s)) = false := by
  obtain ⟨sid, sshow, snum, sstat, slock⟩ := s
  cases sstat <;> cases slock <;>
    simp [reapSeatFun, seatLockExpired] <;> (try split) <;> simp_all

/-- Claim C8 — `releaseExpiredLocks` resets exactly the seats that are
`PENDING` with an elapsed `lockedUntil` to `AVAILABLE` with the expiry
cleared, changes no other seat and no show or booking, returns the number of
seats so reclaimed, and run a second time immediately (same clock, no
intervening activity) it reclaims zero seats and changes nothing. -/
theorem spec_C8 (st : DBState) (now : Nat) :
    (releaseExpiredLocks st now).1 = st.seats.countP
      (fun s => s.status == SeatStatus.PENDING && seatLockExpired now s) ∧
    List.Forall₂ (fun s s' =>
      (s.status = SeatStatus.PENDING ∧ seatLockExpired now s = true →
        s' = { s with status := SeatStatus.AVAILABLE, lockedUntil := none }) ∧
      (¬(s.status = SeatStatus.PENDING ∧ seatLockExpired now s = true) →
        s' = s))
      st.seats (releaseExpiredLocks st now).2.seats ∧
    (releaseExpiredLocks st now).2.shows = st.shows ∧
    (releaseExpiredLocks st now).2.bookings = st.bookings ∧
    releaseExpiredLocks (releaseExpiredLocks st now).2 now =
      (0, (releaseExpiredLocks st now).2) := by
  refine ⟨(List.countP_eq_length_filter _ _).symm, ?_, rfl, rfl, ?_⟩
  · show List.Forall₂ _ st.seats (st.seats.map (reapSeatFun now))
    rw [List.forall₂_map_right_iff]
    rw [List.forall₂_same]
    intro s _
    obtain ⟨sid, sshow, snum, sstat, slock⟩ := s
    cases sstat <;> cases slock <;>
      simp [reapSeatFun, seatLockExpired]
  · show releaseExpiredLocks
        { st with seats := st.seats.map (reapSeatFun now) } now = _
    unfold releaseExpiredLocks
    dsimp only
    refine Prod.ext ?_ ?_
    · show (List.filter _ (st.seats.map (reapSeatFun now))).length = 0
      rw [List.length_eq_zero]
      rw [List.filter_eq_nil_iff]
      intro s' hs'
      rcases List.mem_map.mp hs' with ⟨s, -, rfl⟩
      simp [reapSeatFun_not_expired now s]
    · show ({ st with seats :=
          (st.seats.map (reapSeatFun now)).map (reapSeatFun now) } : DBState)
        = _
      rw [List.map_map]
      congr 1
      exact List.map_congr_left (fun s _ => reapSeatFun_idem now s)

/-- A state whose seats arise by mapping a pointwise-invariant-respecting
update over an invariant-respecting seat list satisfies `lockInv`. -/
theorem lockInv_map (st : DBState) (f : Seat → Seat) (h : lockInv st)
    (hf : ∀ s ∈ st.seats, ((f s).lockedUntil.isSome = true ↔
      (f s).status = SeatStatus.PENDING)) :
    ∀ s' ∈ st.seats.map f,
      (s'.lockedUntil.isSome = true ↔ s'.status = SeatStatus.PENDING) := by
  intro s' hs'
  rcases List.mem_map.mp hs' with ⟨s, hs, rfl⟩
  exact hf s hs

/-- Claim C6 — every storage-layer operation (`lockSeats`, `unlockSeats`,
`markSeatsAsBooked`, `releaseExpiredLocks`, `attemptBooking`, `createSeats`)
preserves the invariant that `lockedUntil` is set if and only if the seat's
status is `PENDING`. -/
theorem spec_C6 (st : DBState) (h : lockInv st) (ids : List Nat)
    (untl now : Nat) (contended : Bool) (showId cnt : Nat)
    (userId : Option Nat) :
    lockInv (lockSeats st ids untl now contended).2 ∧
    lockInv (unlockSeats st ids) ∧
    lockInv (markSeatsAsBooked st ids) ∧
    lockInv (releaseExpiredLocks st now).2 ∧
    lockInv (attemptBooking st showId ids userId now contended).2 ∧
    lockInv (createSeats st showId cnt).2 := by
  refine ⟨?_, ?_, ?_, ?_, ?_, ?_⟩
  · unfold lockSeats
    dsimp only
    split
    · exact h
    · split
      · exact lockInv_map st _ h (by
          intro s hs
          split
          · simp
          · exact h s hs)
      · exact h
  · exact lockInv_map st _ h (by
      intro s hs
      unfold unlockSeatFun
      split
      · simp
      · exact h s hs)
  · exact lockInv_map st _ h (by
      intro s hs
      split
      · simp
      · exact h s hs)
  · exact lockInv_map st _ h (by
      intro s hs
      unfold reapSeatFun
      split
      · simp
      · exact h s hs)
  · unfold attemptBooking
    dsimp only
    split
    · exact h
    · split
      · split
        · exact h
        · exact lockInv_map st _ h (by
            intro s hs
            unfold bookSeatFun
            split
            · simp
            · exact h s hs)
      · exact h
  · unfold createSeats
    dsimp only
    intro s' hs'
    rcases List.mem_append.mp hs' with hs' | hs'
    · exact h s' hs'
    · rcases List.mem_map.mp hs' with ⟨i, -, rfl⟩
      simp

/-- Witness for C6: the invariant holds of the sample database and is
preserved by a concrete release of seat 3. -/
theorem spec_C6_witness :
    lockInv sampleDB ∧ lockInv (unlockSeats sampleDB [3]) :=
  ⟨by decide, (spec_C6 sampleDB (by decide) [3] 0 0 false 0 0 none).2.1⟩

/-- A seat that the spec calls logically free (status `AVAILABLE`, or
`PENDING` with a lock-expiry strictly in the past) passes the boolean
eligibility test shared by `lockSeats` and `attemptBooking`. -/
theorem seatFree_of_logically_free (now : Nat) (s : Seat)
    (h : s.status = SeatStatus.AVAILABLE ∨
      (s.status = SeatStatus.PENDING ∧
        ∃ t, s.lockedUntil = some t ∧ t < now)) :
    seatFree now s = true := by
  rcases h with h | ⟨h1, t, h2, h3⟩
  · simp [seatFree, h]
  · simp [seatFree, seatLockExpired, h1, h2, h3]

/-- When every requested id is realized by a distinct seat satisfying the row
predicate, the `SELECT` over the request matches exactly one row per request
entry. -/
theorem filter_request_length (seats : List Seat) (ids : List Nat)
    (P : Seat → Bool) (hnd : (seats.map Seat.id).Nodup) (hids : ids.Nodup)
    (hex : ∀ i ∈ ids, ∃ s ∈ seats, s.id = i ∧ P s = true) :
    (seats.filter (fun s => ids.contains s.id && P s)).length = ids.length := by
  set F := seats.filter (fun s => ids.contains s.id && P s) with hF
  have hsubl : F.Sublist seats := List.filter_sublist seats
  have hndF : (F.map Seat.id).Nodup :=
    List.Nodup.sublist (List.Sublist.map Seat.id hsubl) hnd
  have hss : (F.map Seat.id) ⊆ ids := by
    intro x hx
    rcases List.mem_map.mp hx with ⟨s, hsF, rfl⟩
    rcases List.mem_filter.mp hsF with ⟨-, hp⟩
    exact List.mem_of_elem_eq_true (Bool.and_eq_true_iff.mp hp).1
  have hss2 : ids ⊆ (F.map Seat.id) := by
    intro i hi
    rcases hex i hi with ⟨s, hs, rfl, hP⟩
    refine List.mem_map.mpr ⟨s, ?_, rfl⟩
    refine List.mem_filter.mpr ⟨hs, ?_⟩
    rw [Bool.and_eq_true_iff]
    exact ⟨List.elem_eq_true_of_mem hi, hP⟩
  have hperm : (F.map Seat.id).Perm ids :=
    List.Subperm.antisymm (List.subperm_of_subset hndF hss)
      (List.subperm_of_subset hids hss2)
  calc F.length = (F.map Seat.id).length := (List.length_map F Seat.id).symm
    _ = ids.length := hperm.length_eq

/-- Claim C5 — a `PENDING` seat whose `lockedUntil` lies in the past is
treated as free by a fresh acquisition attempt even before the reaper resets
it: when every requested seat is `AVAILABLE` or expired-`PENDING` (and the
request names distinct existing seats of the show without contention), both
`attemptBooking` and `lockSeats` acquire the seats — the former returns a
booking, the latter returns `true`. -/
theorem spec_C5 (st : DBState) (showId : Nat) (seatIds : List Nat)
    (userId : Option Nat) (now untl : Nat)
    (hnd : (st.seats.map Seat.id).Nodup)
    (hids : seatIds.Nodup)
    (hex : ∀ sid ∈ seatIds, ∃ s ∈ st.seats, s.id = sid ∧ s.showId = showId ∧
      (s.status = SeatStatus.AVAILABLE ∨
        (s.status = SeatStatus.PENDING ∧
          ∃ t, s.lockedUntil = some t ∧ t < now))) :
    (∃ b, (attemptBooking st showId seatIds userId now false).1 =
      Except.ok b) ∧
    (lockSeats st seatIds untl now false).1 = true := by
  constructor
  · have hlen : (st.seats.filter (fun s =>
        seatIds.contains s.id && s.showId == showId)).length =
        seatIds.length := by
      refine filter_request_length st.seats seatIds _ hnd hids ?_
      intro i hi
      rcases hex i hi with ⟨s, hs, rfl, hshow, -⟩
      exact ⟨s, hs, rfl, by simp [hshow]⟩
    have hfree : ∀ s ∈ st.seats.filter (fun s =>
        seatIds.contains s.id && s.showId == showId), seatFree now s = true := by
      intro s hsF
      rcases List.mem_filter.mp hsF with ⟨hs, hp⟩
      have hmem : s.id ∈ seatIds :=
        List.mem_of_elem_eq_true (Bool.and_eq_true_iff.mp hp).1
      rcases hex s.id hmem with ⟨s', hs', hid, -, hlf⟩
      have : s' = s := List.inj_on_of_nodup_map hnd hs' hs hid
      subst this
      exact seatFree_of_logically_free now s' hlf
    unfold attemptBooking
    rw [if_neg (by simp)]
    dsimp only
    rw [if_pos hlen]
    rw [if_neg ?_]
    · exact ⟨_, rfl⟩
    · rw [List.filter_eq_nil_iff.mpr ?_]
      · simp
      · intro s hsF
        rw [Bool.not_eq_true, Bool.not_eq_eq_eq_not, Bool.not_false]
        exact hfree s hsF
  · have hlen : (st.seats.filter (fun s =>
        seatIds.contains s.id && seatFree now s)).length =
        seatIds.length := by
      refine filter_request_length st.seats seatIds _ hnd hids ?_
      intro i hi
      rcases hex i hi with ⟨s, hs, rfl, -, hlf⟩
      exact ⟨s, hs, rfl, seatFree_of_logically_free now s hlf⟩
    unfold lockSeats
    rw [if_neg (by simp)]
    dsimp only
    rw [if_pos hlen]

/-- Witness for C5: with the sample database at time 50, seat 3 is `PENDING`
with `lockedUntil = 5` in the past, and a fresh booking attempt acquires it. -/
theorem spec_C5_witness :
    (∃ b, (attemptBooking sampleDB 0 [3] none 50 false).1 = Except.ok b) ∧
    (lockSeats sampleDB [3] 99 50 false).1 = true :=
  spec_C5 sampleDB 0 [3] none 50 99 (by decide) (by decide)
    (by
      intro sid hsid
      have : sid = 3 := by
        rcases List.mem_singleton.mp hsid with rfl
        rfl
      subst this
      exact ⟨{ id := 3, showId := 0, seatNumber := 3,
               status := SeatStatus.PENDING, lockedUntil := some 5 },
        by decide, rfl, rfl, Or.inr ⟨rfl, 5, rfl, by decide⟩⟩)

/-- Claim C10 — a request list containing a duplicated seat id always throws
`INVALID_SEATS` and books nothing, even when every listed id exists in the
show and is `AVAILABLE`: the number of distinct matching rows is compared
against the length of the request list. -/
theorem spec_C10 (st : DBState) (showId : Nat) (seatIds : List Nat)
    (userId : Option Nat) (now : Nat)
    (hnd : (st.seats.map Seat.id).Nodup)
    (hdup : ¬seatIds.Nodup)
    (hex : ∀ sid ∈ seatIds, ∃ s ∈ st.seats, s.id = sid ∧ s.showId = showId ∧
      s.status = SeatStatus.AVAILABLE) :
    attemptBooking st showId seatIds userId now false =
      (Except.error BookingError.INVALID_SEATS, st) := by
  have hlt : seatIds.dedup.length < seatIds.length := by
    rcases Nat.lt_or_ge seatIds.dedup.length seatIds.length with h | h
    · exact h
    · exfalso
      apply hdup
      apply List.dedup_eq_self.mp
      exact List.Sublist.eq_of_length (List.dedup_sublist seatIds)
        (Nat.le_antisymm (List.Sublist.length_le (List.dedup_sublist seatIds)) h)
  have hle : (st.seats.filter (fun s =>
      seatIds.contains s.id && s.showId == showId)).length ≤
      seatIds.dedup.length :=
    filter_contains_length_le st.seats seatIds _ hnd
  unfold attemptBooking
  rw [if_neg (by simp)]
  dsimp only
  rw [if_neg (by omega)]

/-- Witness for C10: requesting seat 1 twice in the concrete database errors
with `INVALID_SEATS` and leaves the state unchanged, although seat 1 exists
and is `AVAILABLE`. -/
theorem spec_C10_witness :
    ¬([1, 1] : List Nat).Nodup ∧
    attemptBooking sampleDB 0 [1, 1] none 50 false =
      (Except.error BookingError.INVALID_SEATS, sampleDB) :=
  ⟨by decide, spec_C10 sampleDB 0 [1, 1] none 50 (by decide) (by decide)
    (by decide)⟩

/-! ### Preservation of well-formedness and the counter invariant (claim C3) -/

/-- A boolean-eligible seat is not `BOOKED`. -/
theorem seatFree_not_booked (now : Nat) (s : Seat)
    (h : seatFree now s = true) : s.status ≠ SeatStatus.BOOKED := by
  intro hb
  simp [seatFree, hb] at h

/-- The `unlockSeats` per-seat update never changes id or owning show. -/
theorem unlockSeatFun_fields (ids : List Nat) (s : Seat) :
    (unlockSeatFun ids s).id = s.id ∧
      (unlockSeatFun ids s).showId = s.showId := by
  unfold unlockSeatFun
  split <;> exact ⟨rfl, rfl⟩

/-- The `unlockSeats` per-seat update preserves being `BOOKED`. -/
theorem unlockSeatFun_booked (ids : List Nat) (s : Seat) :
    ((unlockSeatFun ids s).status = SeatStatus.BOOKED ↔
      s.status = SeatStatus.BOOKED) := by
  unfold unlockSeatFun
  split
  · rename_i h
    have : s.status = SeatStatus.PENDING := by
      have := (Bool.and_eq_true_iff.mp h).2
      simpa using this
    simp [this]
  · exact Iff.rfl

/-- The reaper per-seat update never changes id or owning show. -/
theorem reapSeatFun_fields (now : Nat) (s : Seat) :
    (reapSeatFun now s).id = s.id ∧ (reapSeatFun now s).showId = s.showId := by
  unfold reapSeatFun
  split <;> exact ⟨rfl, rfl⟩

/-- The reaper per-seat update preserves being `BOOKED`. -/
theorem reapSeatFun_booked (now : Nat) (s : Seat) :
    ((reapSeatFun now s).status = SeatStatus.BOOKED ↔
      s.status = SeatStatus.BOOKED) := by
  unfold reapSeatFun
  split
  · rename_i h
    have : s.status = SeatStatus.PENDING := by
      have := (Bool.and_eq_true_iff.mp h).1
      simpa using this
    simp [this]
  · exact Iff.rfl

/-- Mapping an id- and show-preserving update over the seats preserves
well-formedness. -/
theorem WF_map_seats (st : DBState) (f : Seat → Seat)
    (hid : ∀ s, (f s).id = s.id) (hshow : ∀ s, (f s).showId = s.showId)
    (h : WF st) : WF { st with seats := st.seats.map f } := by
  obtain ⟨h1, h2, h3, h4⟩ := h
  refine ⟨?_, h2, ?_, h4⟩
  · have : (st.seats.map f).map Seat.id = st.seats.map Seat.id := by
      rw [List.map_map]
      exact List.map_congr_left (fun s _ => hid s)
    rw [this]
    exact h1
  · intro s' hs'
    rcases List.mem_map.mp hs' with ⟨s, hs, rfl⟩
    rw [hid s, hshow s]
    exact h3 s hs

/-- Mapping a show- and `BOOKED`-preserving update over the seats preserves
the counter invariant. -/
theorem counterInv_map_seats (st : DBState) (f : Seat → Seat)
    (hshow : ∀ s ∈ st.seats, (f s).showId = s.showId)
    (hbook : ∀ s ∈ st.seats,
      ((f s).status = SeatStatus.BOOKED ↔ s.status = SeatStatus.BOOKED))
    (h : counterInv st) :
    counterInv { st with seats := st.seats.map f } := by
  intro sh hsh
  have hc : bookedCount { st with seats := st.seats.map f } sh.id =
      bookedCount st sh.id := by
    unfold bookedCount
    show (st.seats.map f).countP _ = st.seats.countP _
    rw [List.countP_map]
    refine List.countP_congr ?_
    intro s hs
    simp only [Function.comp_apply, Bool.and_eq_true_iff, beq_iff_eq]
    rw [hshow s hs]
    exact and_congr_right (fun _ => by rw [hbook s hs])
  rw [hc]
  exact h sh hsh

/-- `unlockSeats` preserves well-formedness and the counter invariant. -/
theorem unlockSeats_preserve (st : DBState) (ids : List Nat)
    (hWF : WF st) (hInv : counterInv st) :
    WF (unlockSeats st ids) ∧ counterInv (unlockSeats st ids) :=
  ⟨WF_map_seats st _ (fun s => (unlockSeatFun_fields ids s).1)
      (fun s => (unlockSeatFun_fields ids s).2) hWF,
    counterInv_map_seats st _ (fun s _ => (unlockSeatFun_fields ids s).2)
      (fun s _ => unlockSeatFun_booked ids s) hInv⟩

/-- `releaseExpiredLocks` preserves well-formedness and the counter
invariant. -/
theorem releaseExpiredLocks_preserve (st : DBState) (now : Nat)
    (hWF : WF st) (hInv : counterInv st) :
    WF (releaseExpiredLocks st now).2 ∧
      counterInv (releaseExpiredLocks st now).2 :=
  ⟨WF_map_seats st _ (fun s => (reapSeatFun_fields now s).1)
      (fun s => (reapSeatFun_fields now s).2) hWF,
    counterInv_map_seats st _ (fun s _ => (reapSeatFun_fields now s).2)
      (fun s _ => reapSeatFun_booked now s) hInv⟩

/-- `lockSeats` preserves well-formedness and the counter invariant. -/
theorem lockSeats_preserve (st : DBState) (ids : List Nat)
    (untl now : Nat) (contended : Bool)
    (hWF : WF st) (hInv : counterInv st) :
    WF (lockSeats st ids untl now contended).2 ∧
      counterInv (lockSeats st ids untl now contended).2 := by
  unfold lockSeats
  dsimp only
  split
  · exact ⟨hWF, hInv⟩
  · split
    · rename_i hlen
      have hex := lockRows_exact st.seats ids (seatFree now) hWF.1 hlen
      refine ⟨WF_map_seats st _ ?_ ?_ hWF, counterInv_map_seats st _ ?_ ?_ hInv⟩
      · intro s
        split <;> rfl
      · intro s
        split <;> rfl
      · intro s _
        split <;> rfl
      · intro s hs
        split
        · rename_i hc
          have hnb : s.status ≠ SeatStatus.BOOKED :=
            seatFree_not_booked now s (hex.2.1 s hs hc)
          simp [hnb]
        · exact Iff.rfl
    · exact ⟨hWF, hInv⟩

/-- `updateBookingStatus` preserves well-formedness and the counter
invariant (it only changes booking rows). -/
theorem updateBookingStatus_preserve (st : DBState) (id : Nat)
    (status : BookingStatus) (hWF : WF st) (hInv : counterInv st) :
    WF (updateBookingStatus st id status) ∧
      counterInv (updateBookingStatus st id status) :=
  ⟨hWF, hInv⟩

/-- A list not containing an element in the boolean sense does not contain it
in the membership sense. -/
theorem not_mem_of_contains_false {l : List Nat} {a : Nat}
    (h : l.contains a = false) : a ∉ l := by
  intro hm
  have h2 : l.contains a = true := List.elem_eq_true_of_mem hm
  rw [h2] at h
  cases h

/-- On the success path of `attemptBooking` every seat whose id was requested
passes the eligibility test: the unavailable-rows filter came back empty. -/
theorem attemptBooking_success_free (st : DBState) (showId : Nat)
    (seatIds : List Nat)
    (hin : ∀ s ∈ st.seats, seatIds.contains s.id = true →
      (s.showId == showId) = true)
    (hunav : ¬((st.seats.filter
        (fun s => seatIds.contains s.id && s.showId == showId)).filter
        (fun s => !seatFree now s)).length > 0) :
    ∀ s ∈ st.seats, seatIds.contains s.id = true → seatFree now s = true := by
  have hnil : (st.seats.filter
      (fun s => seatIds.contains s.id && s.showId == showId)).filter
      (fun s => !seatFree now s) = [] :=
    List.length_eq_zero.mp (Nat.eq_zero_of_not_pos hunav)
  intro s hs hc
  by_contra hnf
  have hmem : s ∈ st.seats.filter
      (fun s => seatIds.contains s.id && s.showId == showId) :=
    List.mem_filter.mpr ⟨hs, by
      rw [Bool.and_eq_true_iff]
      exact ⟨hc, hin s hs hc⟩⟩
  have : s ∈ (st.seats.filter
      (fun s => seatIds.contains s.id && s.showId == showId)).filter
      (fun s => !seatFree now s) := by
    refine List.mem_filter.mpr ⟨hmem, ?_⟩
    rw [Bool.not_eq_true] at hnf
    rw [hnf]
    rfl
  rw [hnil] at this
  cases this

/-- `attemptBooking` preserves well-formedness and the counter invariant:
on error nothing changes, and on success the booked-seat count of the target
show rises by exactly the request length while its counter falls by the same
amount. -/
theorem attemptBooking_preserve (st : DBState) (showId : Nat)
    (seatIds : List Nat) (userId : Option Nat) (now : Nat) (contended : Bool)
    (hWF : WF st) (hInv : counterInv st) :
    WF (attemptBooking st showId seatIds userId now contended).2 ∧
      counterInv (attemptBooking st showId seatIds userId now contended).2 := by
  unfold attemptBooking
  dsimp only
  split
  · exact ⟨hWF, hInv⟩
  · split
    · split
      · exact ⟨hWF, hInv⟩
      · rename_i hlen hunav
        obtain ⟨hndSeat, hndShow, hbounds, hshbounds⟩ := hWF
        obtain ⟨hidsnd, hin, hreal⟩ :=
          lockRows_exact st.seats seatIds (fun s => s.showId == showId)
            hndSeat hlen
        have hfree : ∀ s ∈ st.seats, seatIds.contains s.id = true →
            seatFree now s = true :=
          attemptBooking_success_free st showId seatIds hin hunav
        have hnb : ∀ s ∈ st.seats, seatIds.contains s.id = true →
            s.status ≠ SeatStatus.BOOKED :=
          fun s hs hc => seatFree_not_booked now s (hfree s hs hc)
        constructor
        · -- well-formedness of the committed state
          refine ⟨?_, ?_, ?_, ?_⟩
          · have : (st.seats.map (bookSeatFun seatIds)).map Seat.id =
                st.seats.map Seat.id := by
              rw [List.map_map]
              exact List.map_congr_left
                (fun s _ => (bookSeatFun_id seatIds s).1)
            rw [this]
            exact hndSeat
          · have : ((st.shows.map (fun sh =>
                if (sh.id == showId) = true then
                  { sh with availableSeats :=
                      sh.availableSeats - (seatIds.length : Int) }
                else sh)).map ShowRow.id) = st.shows.map ShowRow.id := by
              rw [List.map_map]
              refine List.map_congr_left (fun sh _ => ?_)
              simp only [Function.comp_apply]
              split <;> rfl
            rw [this]
            exact hndShow
          · intro s' hs'
            rcases List.mem_map.mp hs' with ⟨s, hs, rfl⟩
            rw [(bookSeatFun_id seatIds s).1, (bookSeatFun_id seatIds s).2]
            exact ⟨Nat.lt_succ_of_lt (hbounds s hs).1,
              Nat.lt_succ_of_lt (hbounds s hs).2⟩
          · intro sh' hsh'
            rcases List.mem_map.mp hsh' with ⟨sh, hsh, rfl⟩
            have : (if (sh.id == showId) = true then
                { sh with availableSeats :=
                    sh.availableSeats - (seatIds.length : Int) }
              else sh).id = sh.id := by
              split <;> rfl
            rw [this]
            exact Nat.lt_succ_of_lt (hshbounds sh hsh)
        · -- the counter invariant of the committed state
          intro sh' hsh'
          rcases List.mem_map.mp hsh' with ⟨sh, hsh, rfl⟩
          have hcount : (st.seats.map (bookSeatFun seatIds)).countP
              (fun s => s.showId == sh.id && s.status == SeatStatus.BOOKED) =
              (if sh.id = showId then seatIds.length else 0) +
                bookedCount st sh.id := by
            rw [List.countP_map]
            by_cases hX : sh.id = showId
            · subst hX
              have h1 : st.seats.countP
                  (fun s => (bookSeatFun seatIds s).showId == sh.id &&
                    (bookSeatFun seatIds s).status == SeatStatus.BOOKED) =
                  st.seats.countP (fun s => seatIds.contains s.id ||
                    (s.showId == sh.id && s.status == SeatStatus.BOOKED)) := by
                refine List.countP_congr (fun s hs => ?_)
                by_cases hc : seatIds.contains s.id = true
                · have hshow : (s.showId == sh.id) = true := hin s hs hc
                  have hcm : s.id ∈ seatIds := List.mem_of_elem_eq_true hc
                  simp [bookSeatFun, hcm, hshow]
                · rw [Bool.not_eq_true] at hc
                  have hcm : s.id ∉ seatIds := not_mem_of_contains_false hc
                  simp [bookSeatFun, hcm]
              have h2 : st.seats.countP (fun s => seatIds.contains s.id ||
                  (s.showId == sh.id && s.status == SeatStatus.BOOKED)) =
                  st.seats.countP (fun s => seatIds.contains s.id) +
                    bookedCount st sh.id := by
                refine countP_or_disjoint _ _ _ (fun s hs hand => ?_)
                have hbooked : s.status = SeatStatus.BOOKED := by
                  have := (Bool.and_eq_true_iff.mp hand.2).2
                  simpa using this
                exact hnb s hs hand.1 hbooked
              have h3 : st.seats.countP (fun s => seatIds.contains s.id) =
                  seatIds.length := by
                have heq : st.seats.countP (fun s => seatIds.contains s.id) =
                    st.seats.countP (fun s =>
                      seatIds.contains s.id && s.showId == sh.id) := by
                  refine List.countP_congr (fun s hs => ?_)
                  constructor
                  · intro hc
                    rw [Bool.and_eq_true_iff]
                    exact ⟨hc, hin s hs hc⟩
                  · intro hc
                    exact (Bool.and_eq_true_iff.mp hc).1
                rw [heq, List.countP_eq_length_filter]
                exact hlen
              rw [show (fun s => (bookSeatFun seatIds s).showId == sh.id &&
                  (bookSeatFun seatIds s).status == SeatStatus.BOOKED) =
                  ((fun s => s.showId == sh.id &&
                    s.status == SeatStatus.BOOKED) ∘ bookSeatFun seatIds)
                from rfl] at h1
              rw [h1, h2, h3, if_pos rfl]
            · have h1 : st.seats.countP
                  (fun s => (bookSeatFun seatIds s).showId == sh.id &&
                    (bookSeatFun seatIds s).status == SeatStatus.BOOKED) =
                  st.seats.countP (fun s => s.showId == sh.id &&
                    s.status == SeatStatus.BOOKED) := by
                refine List.countP_congr (fun s hs => ?_)
                by_cases hc : seatIds.contains s.id = true
                · have hshow : s.showId = showId := by
                    have := hin s hs hc
                    simpa using this
                  have hcm : s.id ∈ seatIds := List.mem_of_elem_eq_true hc
                  have hnbs : s.status ≠ SeatStatus.BOOKED := hnb s hs hc
                  simp [bookSeatFun, hcm, hshow, hnbs]
                  exact fun hh => absurd hh.symm hX
                · rw [Bool.not_eq_true] at hc
                  have hcm : s.id ∉ seatIds := not_mem_of_contains_false hc
                  simp [bookSeatFun, hcm]
              rw [show (fun s => (bookSeatFun seatIds s).showId == sh.id &&
                  (bookSeatFun seatIds s).status == SeatStatus.BOOKED) =
                  ((fun s => s.showId == sh.id &&
                    s.status == SeatStatus.BOOKED) ∘ bookSeatFun seatIds)
                from rfl] at h1
              rw [h1, if_neg hX]
              simp [bookedCount]
          have hInvsh := hInv sh hsh
          by_cases hX : sh.id = showId
          · have hbeq : (sh.id == showId) = true := by simp [hX]
            rw [if_pos hbeq]
            show sh.availableSeats - (seatIds.length : Int) =
              (sh.totalSeats : Int) - _
            unfold bookedCount
            show _ = (sh.totalSeats : Int) -
              (((st.seats.map (bookSeatFun seatIds)).countP
                (fun s => s.showId == sh.id &&
                  s.status == SeatStatus.BOOKED) : Nat) : Int)
            rw [hcount, if_pos hX]
            rw [hInvsh]
            push_cast
            ring
          · have hbeq : (sh.id == showId) = false := by
              simp
              exact hX
            rw [if_neg (by rw [hbeq]; exact Bool.false_ne_true)]
            show sh.availableSeats = (sh.totalSeats : Int) - _
            unfold bookedCount
            show _ = (sh.totalSeats : Int) -
              (((st.seats.map (bookSeatFun seatIds)).countP
                (fun s => s.showId == sh.id &&
                  s.status == SeatStatus.BOOKED) : Nat) : Int)
            rw [hcount, if_neg hX]
            rw [hInvsh]
            push_cast
            ring
    · exact ⟨hWF, hInv⟩

/-- `createShow` preserves well-formedness and the counter invariant; the new
show enters with `availableSeats = totalSeats` and a full complement of
`AVAILABLE` seats. -/
theorem createShow_preserve (st : DBState) (n : String) (t : Nat) (c : Nat)
    (hWF : WF st) (hInv : counterInv st) :
    WF (createShow st n t c).2 ∧ counterInv (createShow st n t c).2 := by
  obtain ⟨hndSeat, hndShow, hbounds, hshbounds⟩ := hWF
  unfold createShow createSeats
  dsimp only
  constructor
  · refine ⟨?_, ?_, ?_, ?_⟩
    · rw [List.map_append, List.map_map]
      refine List.Nodup.append hndSeat ?_ ?_
      · refine List.Nodup.map ?_ (List.nodup_range c)
        intro a b hab
        simpa using hab
      · intro a ha hb
        rcases List.mem_map.mp hb with ⟨i, hi, rfl⟩
        rcases List.mem_map.mp ha with ⟨s, hs, hsa⟩
        have h1 : s.id < st.nextId := (hbounds s hs).1
        simp only [Function.comp_apply] at hsa
        omega
    · rw [List.map_append]
      refine List.Nodup.append hndShow (List.nodup_singleton _) ?_
      intro a ha hb
      rcases List.mem_map.mp ha with ⟨sh, hsh, rfl⟩
      have h1 : sh.id < st.nextId := hshbounds sh hsh
      have h2 : sh.id = st.nextId := by simpa using hb
      omega
    · intro s hs
      rcases List.mem_append.mp hs with hs | hs
      · have := hbounds s hs
        constructor <;> [skip; skip] <;> · simp only []; omega
      · rcases List.mem_map.mp hs with ⟨i, hi, rfl⟩
        have : i < c := List.mem_range.mp hi
        constructor <;> · simp only []; omega
    · intro sh hsh
      rcases List.mem_append.mp hsh with hsh | hsh
      · have := hshbounds sh hsh
        simp only []
        omega
      · rcases List.mem_singleton.mp hsh with rfl
        simp only []
        omega
  · intro sh hsh
    have hnew0 : ∀ sid : Nat, ((List.range c).map (fun i =>
        ({ id := st.nextId + 1 + i, showId := st.nextId, seatNumber := i + 1,
           status := SeatStatus.AVAILABLE, lockedUntil := none } : Seat))).countP
        (fun s => s.showId == sid && s.status == SeatStatus.BOOKED) = 0 := by
      intro sid
      rw [List.countP_eq_zero]
      intro s hs
      rcases List.mem_map.mp hs with ⟨i, -, rfl⟩
      simp
    rcases List.mem_append.mp hsh with hsh | hsh
    · have hI := hInv sh hsh
      show sh.availableSeats = (sh.totalSeats : Int) - _
      unfold bookedCount
      show _ = (sh.totalSeats : Int) - (((st.seats ++ _).countP _ : Nat) : Int)
      rw [List.countP_append, hnew0]
      unfold bookedCount at hI
      omega
    · rcases List.mem_singleton.mp hsh with rfl
      show (c : Int) = (c : Int) - _
      unfold bookedCount
      show _ = (c : Int) - (((st.seats ++ _).countP _ : Nat) : Int)
      rw [List.countP_append, hnew0]
      have hold0 : st.seats.countP (fun s =>
          s.showId == st.nextId && s.status == SeatStatus.BOOKED) = 0 := by
        rw [List.countP_eq_zero]
        intro s hs
        have : s.showId < st.nextId := (hbounds s hs).2
        have hne : s.showId ≠ st.nextId := Nat.ne_of_lt this
        simp [hne]
      rw [hold0]
      simp

/-- `failBooking` (the modelled deferred-mode failure path) preserves
well-formedness and the counter invariant. -/
theorem failBooking_preserve (st : DBState) (i : Nat)
    (hWF : WF st) (hInv : counterInv st) :
    WF (failBooking st i) ∧ counterInv (failBooking st i) := by
  unfold failBooking
  split
  · rename_i b hb
    have h1 := unlockSeats_preserve st b.seatIds hWF hInv
    exact updateBookingStatus_preserve _ i _ h1.1 h1.2
  · exact ⟨hWF, hInv⟩

/-- Folding the modelled failure path over any list of bookings preserves
well-formedness and the counter invariant. -/
theorem foldl_failBooking_preserve (bs : List Booking) (cur : DBState)
    (hWF : WF cur) (hInv : counterInv cur) :
    WF (bs.foldl (fun a b => failBooking a b.id) cur) ∧
      counterInv (bs.foldl (fun a b => failBooking a b.id) cur) := by
  induction bs generalizing cur with
  | nil => exact ⟨hWF, hInv⟩
  | cons b bs ih =>
    rw [List.foldl_cons]
    have h1 := failBooking_preserve cur b.id hWF hInv
    exact ih (failBooking cur b.id) h1.1 h1.2

/-- The modelled reaper sweep 2 preserves well-formedness and the counter
invariant. -/
theorem reaperSweep2_preserve (st : DBState) (now : Nat)
    (hWF : WF st) (hInv : counterInv st) :
    WF (reaperSweep2 st now) ∧ counterInv (reaperSweep2 st now) := by
  unfold reaperSweep2
  exact foldl_failBooking_preserve _ st hWF hInv

/-- Every committed operation preserves well-formedness and the counter
invariant. -/
theorem applyOp_preserve (st : DBState) (op : Op)
    (hWF : WF st) (hInv : counterInv st) :
    WF (applyOp st op) ∧ counterInv (applyOp st op) := by
  cases op with
  | opCreateShow n t c => exact createShow_preserve st n t c hWF hInv
  | opAttemptBooking sh ids u now c =>
    exact attemptBooking_preserve st sh ids u now c hWF hInv
  | opLockSeats ids untl now c =>
    exact lockSeats_preserve st ids untl now c hWF hInv
  | opUnlockSeats ids => exact unlockSeats_preserve st ids hWF hInv
  | opReleaseExpiredLocks now =>
    exact releaseExpiredLocks_preserve st now hWF hInv
  | opReaperSweep now => exact reaperSweep2_preserve st now hWF hInv

/-- Every sequence of committed operations preserves well-formedness and the
counter invariant. -/
theorem applyOps_preserve (st : DBState) (ops : List Op)
    (hWF : WF st) (hInv : counterInv st) :
    WF (applyOps st ops) ∧ counterInv (applyOps st ops) := by
  induction ops generalizing st with
  | nil => exact ⟨hWF, hInv⟩
  | cons op ops ih =>
    show WF (applyOps (applyOp st op) ops) ∧ _
    have h1 := applyOp_preserve st op hWF hInv
    exact ih (applyOp st op) h1.1 h1.2

/-- Claim C3 — starting from any well-formed database satisfying the counter
invariant, after any sequence of committed operations (show creation, atomic
bookings, seat lock and unlock, reaper sweeps) every show still satisfies
`availableSeats = totalSeats - count(BOOKED seats)`; and a newly created show
enters the database with `availableSeats = totalSeats`. -/
theorem spec_C3 (st : DBState) (ops : List Op) (hWF : WF st)
    (hInv : counterInv st) :
    counterInv (applyOps st ops) ∧
    ∀ n t c, ((createShow st n t c).1.availableSeats =
        (((createShow st n t c).1.totalSeats : Nat) : Int) ∧
      (createShow st n t c).1 ∈ (createShow st n t c).2.shows) := by
  refine ⟨(applyOps_preserve st ops hWF hInv).2, ?_⟩
  intro n t c
  refine ⟨rfl, ?_⟩
  show _ ∈ st.shows ++ [_]
  exact List.mem_append.mpr (Or.inr (List.mem_singleton.mpr rfl))

/-- Witness for C3: the sample database is well-formed and satisfies the
counter invariant, and it still satisfies it after a concrete booking
followed by a reaper sweep. -/
theorem spec_C3_witness :
    counterInv (applyOps sampleDB
      [Op.opAttemptBooking 0 [1, 2] none 50 false,
       Op.opReleaseExpiredLocks 60]) :=
  (spec_C3 sampleDB
    [Op.opAttemptBooking 0 [1, 2] none 50 false,
     Op.opReleaseExpiredLocks 60] (by decide) (by decide)).1

/-! ### Serialized concurrent booking attempts (claim C4) -/

/-- Full case analysis of one `attemptBooking` transaction: either it rolls
back with one of the three errors and an unchanged state, or it commits the
literal success state. -/
theorem attemptBooking_cases_full (st : DBState) (showId : Nat)
    (seatIds : List Nat) (userId : Option Nat) (now : Nat)
    (contended : Bool) :
    (∃ e, (attemptBooking st showId seatIds userId now contended).1 =
        Except.error e ∧
      (attemptBooking st showId seatIds userId now contended).2 = st) ∨
    ((attemptBooking st showId seatIds userId now contended).1 =
        Except.ok
          { id := st.nextId, showId := showId, userId := userId,
            seatIds := seatIds, status := BookingStatus.CONFIRMED,
            createdAt := now, expiresAt := none } ∧
      (attemptBooking st showId seatIds userId now contended).2 =
        { shows := st.shows.map (fun sh =>
            if (sh.id == showId) = true then
              { sh with availableSeats :=
                  sh.availableSeats - (seatIds.length : Int) }
            else sh),
          seats := st.seats.map (bookSeatFun seatIds),
          bookings := st.bookings ++
            [{ id := st.nextId, showId := showId, userId := userId,
               seatIds := seatIds, status := BookingStatus.CONFIRMED,
               createdAt := now, expiresAt := none }],
          nextId := st.nextId + 1 }) := by
  unfold attemptBooking
  dsimp only
  split
  · exact Or.inl ⟨BookingError.SEATS_LOCKED, rfl, rfl⟩
  · split
    · split
      · exact Or.inl ⟨BookingError.SEATS_UNAVAILABLE, rfl, rfl⟩
      · exact Or.inr ⟨rfl, rfl⟩
    · exact Or.inl ⟨BookingError.INVALID_SEATS, rfl, rfl⟩

/-- A valid selection (distinct existing seat ids of the show) can never
produce `INVALID_SEATS`: the locked row count matches the request length. -/
theorem attemptBooking_not_invalid (st : DBState) (showId : Nat)
    (seatIds : List Nat) (userId : Option Nat) (now : Nat) (contended : Bool)
    (hnd : (st.seats.map Seat.id).Nodup)
    (hv : validSelection st showId seatIds) :
    (attemptBooking st showId seatIds userId now contended).1 ≠
      Except.error BookingError.INVALID_SEATS := by
  have hlen : (st.seats.filter (fun s =>
      seatIds.contains s.id && s.showId == showId)).length =
      seatIds.length := by
    refine filter_request_length st.seats seatIds _ hnd hv.1 ?_
    intro i hi
    rcases hv.2 i hi with ⟨s, hs, hid, hshow⟩
    exact ⟨s, hs, hid, by simp [hshow]⟩
  unfold attemptBooking
  dsimp only
  split
  · simp
  · split <;> simp

/-- The committed or rolled-back state of an attempt still realizes every
valid selection: seat ids and owning shows are untouched. -/
theorem attemptBooking_valid_stable (st : DBState) (showId : Nat)
    (seatIds : List Nat) (userId : Option Nat) (now : Nat) (contended : Bool)
    (X : Nat) (sids : List Nat) (hv : validSelection st X sids) :
    validSelection
      (attemptBooking st showId seatIds userId now contended).2 X sids := by
  rcases attemptBooking_cases_full st showId seatIds userId now contended with
    ⟨e, -, hst⟩ | ⟨-, hst⟩
  · rw [hst]
    exact hv
  · refine ⟨hv.1, ?_⟩
    intro sid hsid
    rcases hv.2 sid hsid with ⟨s, hs, hid, hshow⟩
    refine ⟨bookSeatFun seatIds s, ?_, ?_, ?_⟩
    · rw [hst]
      exact List.mem_map.mpr ⟨s, hs, rfl⟩
    · rw [(bookSeatFun_id seatIds s).1]
      exact hid
    · rw [(bookSeatFun_id seatIds s).2]
      exact hshow

/-- `bookSeatFun` keeps a `BOOKED` seat `BOOKED`. -/
theorem bookSeatFun_keeps_booked (ids : List Nat) (s : Seat)
    (h : s.status = SeatStatus.BOOKED) :
    (bookSeatFun ids s).status = SeatStatus.BOOKED := by
  unfold bookSeatFun
  split
  · rfl
  · exact h

/-- Appending one `CONFIRMED` booking appends its seat list to the union of
confirmed seat ids, whatever happens to shows and seats. -/
theorem confirmedSeatIds_append_confirmed (st : DBState)
    (shows2 : List ShowRow) (seats2 : List Seat) (bk : Booking) (n : Nat)
    (hconf : bk.status = BookingStatus.CONFIRMED) :
    confirmedSeatIds
      { shows := shows2, seats := seats2,
        bookings := st.bookings ++ [bk], nextId := n } =
      confirmedSeatIds st ++ bk.seatIds := by
  unfold confirmedSeatIds
  rw [List.filter_append, List.map_append, List.flatten_append]
  simp [hconf]

/-- Membership in the union of confirmed seat ids names a confirmed booking
containing that seat id. -/
theorem mem_confirmedSeatIds (st : DBState) (a : Nat)
    (ha : a ∈ confirmedSeatIds st) :
    ∃ b ∈ st.bookings, b.status = BookingStatus.CONFIRMED ∧ a ∈ b.seatIds := by
  unfold confirmedSeatIds at ha
  rcases List.mem_flatten.mp ha with ⟨l, hl, hal⟩
  rcases List.mem_map.mp hl with ⟨b, hbF, rfl⟩
  rcases List.mem_filter.mp hbF with ⟨hbmem, hbconf⟩
  exact ⟨b, hbmem, by simpa using hbconf, hal⟩

/-- One booking attempt preserves the claim-C4 invariant: the newly confirmed
seats were not `BOOKED` before, all previously confirmed seats stay `BOOKED`,
and the new booking's seat list is duplicate-free and disjoint from every
earlier confirmed seat list. -/
theorem attemptBooking_C4Inv (st : DBState) (showId : Nat)
    (seatIds : List Nat) (userId : Option Nat) (now : Nat) (contended : Bool)
    (hWF : WF st) (hInv : C4Inv st) :
    C4Inv (attemptBooking st showId seatIds userId now contended).2 := by
  unfold attemptBooking
  dsimp only
  split
  · exact hInv
  · split
    · split
      · exact hInv
      · rename_i hlen hunav
        obtain ⟨hndSeat, -, -, -⟩ := hWF
        obtain ⟨hidsnd, hin, hreal⟩ :=
          lockRows_exact st.seats seatIds (fun s => s.showId == showId)
            hndSeat hlen
        have hfree : ∀ s ∈ st.seats, seatIds.contains s.id = true →
            seatFree now s = true :=
          attemptBooking_success_free st showId seatIds hin hunav
        have hnb : ∀ s ∈ st.seats, seatIds.contains s.id = true →
            s.status ≠ SeatStatus.BOOKED :=
          fun s hs hc => seatFree_not_booked now s (hfree s hs hc)
        constructor
        · rw [confirmedSeatIds_append_confirmed st _ _ _ _ rfl]
          refine List.Nodup.append hInv.1 hidsnd ?_
          intro a ha hb
          rcases hreal a hb with ⟨s, hs, rfl, -⟩
          have hnbooked : s.status ≠ SeatStatus.BOOKED :=
            hnb s hs (List.elem_eq_true_of_mem hb)
          rcases mem_confirmedSeatIds st s.id ha with ⟨b, hbmem, hbconf, hbin⟩
          exact hnbooked (hInv.2 b hbmem hbconf s.id hbin s hs rfl)
        · intro b hb hconf sid hsid s2 hs2 hid
          rcases List.mem_map.mp hs2 with ⟨s, hs, rfl⟩
          rcases List.mem_append.mp hb with hb | hb
          · have hbooked : s.status = SeatStatus.BOOKED := by
              refine hInv.2 b hb hconf sid hsid s hs ?_
              rw [← hid, (bookSeatFun_id seatIds s).1]
            exact bookSeatFun_keeps_booked seatIds s hbooked
          · rcases List.mem_singleton.mp hb with rfl
            have hsid2 : s.id ∈ seatIds := by
              rw [(bookSeatFun_id seatIds s).1] at hid
              rw [hid]
              exact hsid
            unfold bookSeatFun
            rw [if_pos (List.elem_eq_true_of_mem hsid2)]
    · exact hInv

/-- An error outcome contributes nothing to `confirmedTotal`. -/
theorem confirmedTotal_cons_error (e : BookingError)
    (rs : List (Except BookingError Booking)) (X : Nat) :
    confirmedTotal (Except.error e :: rs) X = confirmedTotal rs X := by
  unfold confirmedTotal
  rw [List.map_cons, List.sum_cons]
  simp

/-- A success outcome contributes its seat count to its show's
`confirmedTotal`. -/
theorem confirmedTotal_cons_ok (b : Booking)
    (rs : List (Except BookingError Booking)) (X : Nat) :
    confirmedTotal (Except.ok b :: rs) X =
      (if b.showId = X then b.seatIds.length else 0) + confirmedTotal rs X := by
  unfold confirmedTotal
  rw [List.map_cons, List.sum_cons]

/-- Claim C4 — for any serial execution of booking attempts (the order the
row locks impose on concurrent transactions) from a well-formed state: the
union of all confirmed bookings' seat sets never contains a duplicate seat,
every show's `availableSeats` drops by exactly the total number of seats
confirmed for it, every attempt returns a booking or one of the three
errors, and an attempt over a valid (existing, duplicate-free) seat
selection of its show never loses with `INVALID_SEATS` — it either wins or
observes `SEATS_LOCKED` / `SEATS_UNAVAILABLE`. -/
theorem spec_C4 (st : DBState) (attempts : List Attempt)
    (hWF : WF st) (hC : counterInv st) (hI : C4Inv st) :
    (confirmedSeatIds (runAttempts st attempts).2).Nodup ∧
    (∀ X, getShowById (runAttempts st attempts).2 X =
      (getShowById st X).map (fun sh =>
        { sh with availableSeats := sh.availableSeats -
            (confirmedTotal (runAttempts st attempts).1 X : Int) })) ∧
    List.Forall₂ (fun (a : Attempt) (r : Except BookingError Booking) =>
      ((∃ b, r = Except.ok b) ∨
        r = Except.error BookingError.SEATS_LOCKED ∨
        r = Except.error BookingError.SEATS_UNAVAILABLE ∨
        r = Except.error BookingError.INVALID_SEATS) ∧
      (validSelection st a.showId a.seatIds →
        r ≠ Except.error BookingError.INVALID_SEATS))
      attempts (runAttempts st attempts).1 := by
  induction attempts generalizing st with
  | nil =>
    refine ⟨hI.1, ?_, List.Forall₂.nil⟩
    intro X
    show getShowById st X = (getShowById st X).map _
    cases hX : getShowById st X with
    | none => rfl
    | some sh =>
      show _ = some _
      have h0 : confirmedTotal (runAttempts st []).1 X = 0 := rfl
      simp [h0]
  | cons a rest ih =>
    have hpres := attemptBooking_preserve st a.showId a.seatIds a.userId
      a.now a.contended hWF hC
    have hI1 := attemptBooking_C4Inv st a.showId a.seatIds a.userId
      a.now a.contended hWF hI
    have IH := ih (attemptBooking st a.showId a.seatIds a.userId
      a.now a.contended).2 hpres.1 hpres.2 hI1
    have hrun1 : (runAttempts st (a :: rest)).1 =
        (attemptBooking st a.showId a.seatIds a.userId a.now a.contended).1 ::
        (runAttempts (attemptBooking st a.showId a.seatIds a.userId
          a.now a.contended).2 rest).1 := rfl
    have hrun2 : (runAttempts st (a :: rest)).2 =
        (runAttempts (attemptBooking st a.showId a.seatIds a.userId
          a.now a.contended).2 rest).2 := rfl
    refine ⟨?_, ?_, ?_⟩
    · rw [hrun2]
      exact IH.1
    · intro X
      rw [hrun2, hrun1, IH.2.1 X]
      rcases attemptBooking_cases_full st a.showId a.seatIds a.userId
        a.now a.contended with ⟨e, herr, hst⟩ | ⟨hok, hst⟩
      · rw [hst, herr, confirmedTotal_cons_error]
      · rw [hok, hst, confirmedTotal_cons_ok]
        have hfind : getShowById
            { shows := st.shows.map (fun sh =>
                if (sh.id == a.showId) = true then
                  { sh with availableSeats :=
                      sh.availableSeats - (a.seatIds.length : Int) }
                else sh),
              seats := st.seats.map (bookSeatFun a.seatIds),
              bookings := st.bookings ++
                [{ id := st.nextId, showId := a.showId, userId := a.userId,
                   seatIds := a.seatIds, status := BookingStatus.CONFIRMED,
                   createdAt := a.now, expiresAt := none }],
              nextId := st.nextId + 1 } X =
            (getShowById st X).map (fun sh =>
              if (sh.id == a.showId) = true then
                { sh with availableSeats :=
                    sh.availableSeats - (a.seatIds.length : Int) }
              else sh) := by
          show (st.shows.map _).find? _ = ((st.shows.find? _).map _)
          refine find?_map_invar _ _ _ ?_
          intro sh
          split <;> rfl
        rw [hfind, Option.map_map]
        dsimp only
        cases hX : getShowById st X with
        | none => rfl
        | some sh =>
          unfold getShowById at hX
          have hshX' : sh.id = X := by
            have h2 := List.find?_some hX
            simpa using h2
          simp only [Option.map_some', Function.comp_apply,
            Option.some.injEq]
          by_cases hMatch : sh.id = a.showId
          · rw [if_pos (by simpa using hMatch)]
            rw [if_pos (show a.showId = X by omega)]
            simp only [ShowRow.mk.injEq, true_and]
            push_cast
            ring
          · rw [if_neg (by simpa using hMatch)]
            rw [if_neg (show ¬a.showId = X by omega)]
            simp only [ShowRow.mk.injEq, true_and]
            push_cast
            ring
    · rw [hrun1]
      refine List.Forall₂.cons ⟨?_, ?_⟩ ?_
      · rcases attemptBooking_cases_full st a.showId a.seatIds a.userId
          a.now a.contended with ⟨e, herr, -⟩ | ⟨hok, -⟩
        · cases e with
          | SEATS_LOCKED => exact Or.inr (Or.inl herr)
          | INVALID_SEATS => exact Or.inr (Or.inr (Or.inr herr))
          | SEATS_UNAVAILABLE => exact Or.inr (Or.inr (Or.inl herr))
        · exact Or.inl ⟨_, hok⟩
      · intro hv
        exact attemptBooking_not_invalid st a.showId a.seatIds a.userId
          a.now a.contended hWF.1 hv
      · refine List.Forall₂.imp ?_ IH.2.2
        intro a2 r h
        exact ⟨h.1, fun hv => h.2 (attemptBooking_valid_stable st a.showId
          a.seatIds a.userId a.now a.contended a2.showId a2.seatIds hv)⟩

/-- Witness for C4: two overlapping attempts on the sample database — the
first books seats 1 and 2, the second requests seats 2 and 3 — leave no seat
in two confirmed bookings. -/
theorem spec_C4_witness :
    (confirmedSeatIds (runAttempts sampleDB
      [{ showId := 0, seatIds := [1, 2], userId := none, now := 50,
         contended := false },
       { showId := 0, seatIds := [2, 3], userId := none, now := 50,
         contended := false }]).2).Nodup :=
  (spec_C4 sampleDB
    [{ showId := 0, seatIds := [1, 2], userId := none, now := 50,
       contended := false },
     { showId := 0, seatIds := [2, 3], userId := none, now := 50,
       contended := false }] (by decide) (by decide) (by decide)).1

/-! ### The reaper's second sweep (claim C9, modelled from the spec) -/

/-- An element of the left list of a `Forall₂` has a related partner in the
right list. -/
theorem forall₂_mem_left {α β : Type} {R : α → β → Prop} {l₁ : List α}
    {l₂ : List β} (h : List.Forall₂ R l₁ l₂) :
    ∀ a ∈ l₁, ∃ b ∈ l₂, R a b := by
  induction h with
  | nil => intro a ha; cases ha
  | cons hR _ ih =>
    intro a ha
    rcases List.mem_cons.mp ha with rfl | ha
    · exact ⟨_, List.mem_cons_self _ _, hR⟩
    · rcases ih a ha with ⟨b, hb, hab⟩
      exact ⟨b, List.mem_cons_of_mem _ hb, hab⟩

/-- The sweep simulation preserves the seat id. -/
theorem SeatSim_id {s c : Seat} (h : SeatSim s c) : c.id = s.id := by
  rcases h with rfl | ⟨-, rfl⟩ <;> rfl

/-- The sweep simulation never books a seat. -/
theorem SeatSim_not_booked {s c : Seat} (h : SeatSim s c)
    (hs : s.status ≠ SeatStatus.BOOKED) : c.status ≠ SeatStatus.BOOKED := by
  rcases h with rfl | ⟨-, rfl⟩
  · exact hs
  · simp

/-- Releasing seats extends the sweep simulation. -/
theorem SeatSim_unlock (ids : List Nat) {s c : Seat} (h : SeatSim s c) :
    SeatSim s (unlockSeatFun ids c) := by
  rcases h with h | ⟨hp, h⟩
  · rw [h]
    unfold unlockSeatFun
    split
    · rename_i hcond
      right
      refine ⟨?_, rfl⟩
      have := (Bool.and_eq_true_iff.mp hcond).2
      simpa using this
    · left; rfl
  · rw [h]
    unfold unlockSeatFun
    rw [if_neg ?_]
    · right; exact ⟨hp, rfl⟩
    · rw [Bool.and_eq_true_iff]
      rintro ⟨-, habs⟩
      simp at habs

/-- `failBooking` extends the sweep simulation on seats. -/
theorem failBooking_SeatSim (stSeats : List Seat) (cur : DBState) (i : Nat)
    (h : List.Forall₂ SeatSim stSeats cur.seats) :
    List.Forall₂ SeatSim stSeats (failBooking cur i).seats := by
  unfold failBooking
  split
  · show List.Forall₂ SeatSim stSeats (cur.seats.map (unlockSeatFun _))
    rw [List.forall₂_map_right_iff]
    exact List.Forall₂.imp (fun a b hab => SeatSim_unlock _ hab) h
  · exact h

/-- `failBooking` changes neither booking ids nor booking seat lists. -/
theorem failBooking_keys (cur : DBState) (i : Nat) :
    (failBooking cur i).bookings.map bookingKey =
      cur.bookings.map bookingKey := by
  unfold failBooking
  split
  · show ((cur.bookings.map _).map bookingKey) = _
    rw [List.map_map]
    refine List.map_congr_left (fun b _ => ?_)
    simp only [Function.comp_apply]
    unfold bookingKey
    split <;> rfl
  · rfl

/-- Two booking lists with the same ids and seat lists give `find?`-by-id
results with the same seat lists. -/
theorem find?_key_eq (l1 : List Booking) :
    ∀ l2 : List Booking, l1.map bookingKey = l2.map bookingKey →
    ∀ i, (l1.find? (fun b => b.id == i)).map Booking.seatIds =
      (l2.find? (fun b => b.id == i)).map Booking.seatIds := by
  induction l1 with
  | nil =>
    intro l2 h i
    cases l2 with
    | nil => rfl
    | cons y ys => cases h
  | cons x xs ih =>
    intro l2 h i
    cases l2 with
    | nil => cases h
    | cons y ys =>
      simp only [List.map_cons, List.cons.injEq] at h
      have hid : x.id = y.id := congrArg Prod.fst h.1
      have hsids : x.seatIds = y.seatIds := congrArg Prod.snd h.1
      rw [List.find?_cons, List.find?_cons]
      by_cases hxi : (x.id == i) = true
      · rw [hxi]
        have hyi : (y.id == i) = true := by rw [← hid]; exact hxi
        rw [hyi]
        simp [hsids]
      · rw [Bool.not_eq_true] at hxi
        rw [hxi]
        have hyi : (y.id == i) = false := by rw [← hid]; exact hxi
        rw [hyi]
        exact ih ys h.2 i

/-- With duplicate-free booking ids, `find?`-by-id of a member returns that
member. -/
theorem find?_id_self (l : List Booking) (b : Booking)
    (hnd : (l.map Booking.id).Nodup) (hb : b ∈ l) :
    l.find? (fun c => c.id == b.id) = some b := by
  induction l with
  | nil => cases hb
  | cons x xs ih =>
    rw [List.find?_cons]
    by_cases hxi : (x.id == b.id) = true
    · rw [hxi]
      rcases List.mem_cons.mp hb with rfl | hb
      · rfl
      · exfalso
        have hxid : x.id = b.id := by simpa using hxi
        have : b.id ∈ xs.map Booking.id := List.mem_map.mpr ⟨b, hb, rfl⟩
        rw [List.map_cons] at hnd
        rw [hxid] at hnd
        exact (List.nodup_cons.mp hnd).1 this
    · rw [Bool.not_eq_true] at hxi
      rw [hxi]
      rcases List.mem_cons.mp hb with rfl | hb
      · simp at hxi
      · rw [List.map_cons] at hnd
        exact ih (List.nodup_cons.mp hnd).2 hb

/-- `failBooking` marks every booking with the targeted id `FAILED`. -/
theorem failBooking_fails_id (cur : DBState) (i : Nat) :
    ∀ b2 ∈ (failBooking cur i).bookings, b2.id = i →
      b2.status = BookingStatus.FAILED := by
  unfold failBooking
  split
  · intro b2 hb2 hid
    rcases List.mem_map.mp hb2 with ⟨b, hb, rfl⟩
    by_cases hbi : (b.id == i) = true
    · rw [if_pos hbi]
    · rw [Bool.not_eq_true] at hbi
      rw [if_neg (by rw [hbi]; exact Bool.false_ne_true)] at hid ⊢
      exfalso
      rw [hid] at hbi
      simp at hbi
  · rename_i hnone
    intro b2 hb2 hid
    exfalso
    have := List.find?_eq_none.mp hnone b2 hb2
    rw [hid] at this
    simp at this

/-- `failBooking` never changes a `FAILED` id-class back. -/
theorem failBooking_keeps_failed (cur : DBState) (i j : Nat)
    (h : ∀ b2 ∈ cur.bookings, b2.id = i → b2.status = BookingStatus.FAILED) :
    ∀ b2 ∈ (failBooking cur j).bookings, b2.id = i →
      b2.status = BookingStatus.FAILED := by
  unfold failBooking
  split
  · intro b2 hb2 hid
    rcases List.mem_map.mp hb2 with ⟨b, hb, rfl⟩
    by_cases hbj : (b.id == j) = true
    · rw [if_pos hbj]
    · rw [Bool.not_eq_true] at hbj
      rw [if_neg (by rw [hbj]; exact Bool.false_ne_true)] at hid ⊢
      exact h b hb hid
  · exact h

/-- Folding `failBooking` keeps every already-failed id-class `FAILED`. -/
theorem foldl_keeps_failed (bs : List Booking) (cur : DBState) (i : Nat)
    (h : ∀ b2 ∈ cur.bookings, b2.id = i → b2.status = BookingStatus.FAILED) :
    ∀ b2 ∈ (bs.foldl (fun a b => failBooking a b.id) cur).bookings,
      b2.id = i → b2.status = BookingStatus.FAILED := by
  induction bs generalizing cur with
  | nil => exact h
  | cons x xs ih =>
    rw [List.foldl_cons]
    exact ih (failBooking cur x.id) (failBooking_keeps_failed cur i x.id h)

/-- After folding `failBooking` over a list of bookings, every listed
booking's id-class is `FAILED`. -/
theorem foldl_fails_members (bs : List Booking) (cur : DBState) :
    ∀ b ∈ bs,
      ∀ b2 ∈ (bs.foldl (fun a b => failBooking a b.id) cur).bookings,
        b2.id = b.id → b2.status = BookingStatus.FAILED := by
  induction bs generalizing cur with
  | nil => intro b hb; cases hb
  | cons x xs ih =>
    intro b hb
    rw [List.foldl_cons]
    rcases List.mem_cons.mp hb with rfl | hb
    · exact foldl_keeps_failed xs (failBooking cur b.id) b.id
        (failBooking_fails_id cur b.id)
    · exact ih (failBooking cur x.id) b hb

/-- `failBooking` keeps a seat with a given id `AVAILABLE`. -/
theorem failBooking_keeps_available (cur : DBState) (j sid : Nat)
    (h : ∃ s2 ∈ cur.seats, s2.id = sid ∧ s2.status = SeatStatus.AVAILABLE) :
    ∃ s2 ∈ (failBooking cur j).seats, s2.id = sid ∧
      s2.status = SeatStatus.AVAILABLE := by
  rcases h with ⟨s2, hs2, hid, hst⟩
  unfold failBooking
  split
  · refine ⟨unlockSeatFun _ s2, List.mem_map.mpr ⟨s2, hs2, rfl⟩, ?_, ?_⟩
    · unfold unlockSeatFun
      rw [if_neg ?_]
      · exact hid
      · rw [Bool.and_eq_true_iff]
        rintro ⟨-, habs⟩
        rw [hst] at habs
        simp at habs
    · unfold unlockSeatFun
      rw [if_neg ?_]
      · exact hst
      · rw [Bool.and_eq_true_iff]
        rintro ⟨-, habs⟩
        rw [hst] at habs
        simp at habs
  · exact ⟨s2, hs2, hid, hst⟩

/-- Folding `failBooking` keeps a seat with a given id `AVAILABLE`. -/
theorem foldl_keeps_available (bs : List Booking) (cur : DBState) (sid : Nat)
    (h : ∃ s2 ∈ cur.seats, s2.id = sid ∧ s2.status = SeatStatus.AVAILABLE) :
    ∃ s2 ∈ (bs.foldl (fun a b => failBooking a b.id) cur).seats,
      s2.id = sid ∧ s2.status = SeatStatus.AVAILABLE := by
  induction bs generalizing cur with
  | nil => exact h
  | cons x xs ih =>
    rw [List.foldl_cons]
    exact ih (failBooking cur x.id) (failBooking_keeps_available cur x.id sid h)

/-- Releasing a targeted non-`BOOKED` seat leaves it `AVAILABLE`. -/
theorem unlockSeatFun_status_available (ids : List Nat) (s : Seat)
    (h : s.status ≠ SeatStatus.BOOKED) (hmem : s.id ∈ ids) :
    (unlockSeatFun ids s).status = SeatStatus.AVAILABLE := by
  unfold unlockSeatFun
  cases hst : s.status with
  | AVAILABLE => simp [hst]
  | PENDING =>
    rw [if_pos ?_]
    rw [Bool.and_eq_true_iff]
    exact ⟨List.elem_eq_true_of_mem hmem, by simp⟩
  | BOOKED => exact absurd hst h

/-- Folding `failBooking` extends the sweep simulation on seats. -/
theorem foldl_SeatSim (stS : List Seat) (bs : List Booking) (cur : DBState)
    (h : List.Forall₂ SeatSim stS cur.seats) :
    List.Forall₂ SeatSim stS
      ((bs.foldl (fun a b => failBooking a b.id) cur).seats) := by
  induction bs generalizing cur with
  | nil => exact h
  | cons x xs ih =>
    rw [List.foldl_cons]
    exact ih (failBooking cur x.id) (failBooking_SeatSim stS cur x.id h)

/-- Core of the amended claim C9: folding the modelled failure path over a
list of bookings returns every non-`BOOKED` seat referenced by a listed
booking to `AVAILABLE`, provided the booking rows still carry the listed
seat lists. -/
theorem foldl_unlocks (stB : List Booking) (stS : List Seat)
    (bs : List Booking) :
    ∀ cur : DBState,
    cur.bookings.map bookingKey = stB.map bookingKey →
    List.Forall₂ SeatSim stS cur.seats →
    (∀ b ∈ bs, (stB.find? (fun c => c.id == b.id)).map Booking.seatIds =
      some b.seatIds) →
    ∀ b ∈ bs, ∀ sid ∈ b.seatIds, ∀ s ∈ stS, s.id = sid →
      s.status ≠ SeatStatus.BOOKED →
      ∃ s2 ∈ (bs.foldl (fun a b => failBooking a b.id) cur).seats,
        s2.id = sid ∧ s2.status = SeatStatus.AVAILABLE := by
  induction bs with
  | nil =>
    intro cur _ _ _ b hb
    cases hb
  | cons x xs ih =>
    intro cur hJ hSim hfind b hb sid hsid s hs hid hnb
    rw [List.foldl_cons]
    have hJ1 : (failBooking cur x.id).bookings.map bookingKey =
        stB.map bookingKey := by
      rw [failBooking_keys]
      exact hJ
    have hSim1 : List.Forall₂ SeatSim stS (failBooking cur x.id).seats :=
      failBooking_SeatSim stS cur x.id hSim
    rcases List.mem_cons.mp hb with hbx | hb
    · subst hbx
      have hfx : (cur.bookings.find?
          (fun c => c.id == b.id)).map Booking.seatIds = some b.seatIds := by
        rw [find?_key_eq cur.bookings stB hJ b.id]
        exact hfind b (List.mem_cons_self b xs)
      rcases hcfind : cur.bookings.find? (fun c => c.id == b.id) with - | c
      · rw [hcfind] at hfx
        cases hfx
      · have hcs : c.seatIds = b.seatIds := by
          rw [hcfind] at hfx
          simpa using hfx
        have hred : failBooking cur b.id =
            updateBookingStatus (unlockSeats cur c.seatIds) b.id
              BookingStatus.FAILED := by
          unfold failBooking
          rw [hcfind]
        have hstep : ∃ s2 ∈ (failBooking cur b.id).seats, s2.id = sid ∧
            s2.status = SeatStatus.AVAILABLE := by
          rw [hred]
          rcases forall₂_mem_left hSim s hs with ⟨s0, hs0, hsim0⟩
          have hid0 : s0.id = sid := by
            rw [SeatSim_id hsim0]
            exact hid
          have hnb0 : s0.status ≠ SeatStatus.BOOKED :=
            SeatSim_not_booked hsim0 hnb
          refine ⟨unlockSeatFun c.seatIds s0,
            List.mem_map.mpr ⟨s0, hs0, rfl⟩, ?_, ?_⟩
          · rw [(unlockSeatFun_fields c.seatIds s0).1]
            exact hid0
          · refine unlockSeatFun_status_available c.seatIds s0 hnb0 ?_
            rw [hid0, hcs]
            exact hsid
        exact foldl_keeps_available xs (failBooking cur b.id) sid hstep
    · exact ih (failBooking cur x.id) hJ1 hSim1
        (fun b2 hb2 => hfind b2 (List.mem_cons_of_mem x hb2)) b hb sid hsid
        s hs hid hnb

/-- Counterexample to claim C9 as literally stated: in `reaperDB` booking 2
is `PENDING` with its deadline past at time 10, yet after the sweep its seat
1 is still `BOOKED`, not `AVAILABLE` (the §4.1 release never clobbers a
`BOOKED` seat); the booking itself does transition to `FAILED`. -/
theorem spec_C9_counterexample :
    (∃ b ∈ reaperDB.bookings, bookingExpired 10 b = true ∧
      b.seatIds = [1]) ∧
    (∀ b2 ∈ (reaperSweep2 reaperDB 10).bookings,
      b2.status = BookingStatus.FAILED) ∧
    ¬(∀ b ∈ reaperDB.bookings, bookingExpired 10 b = true →
      ∀ sid ∈ b.seatIds, ∀ s ∈ (reaperSweep2 reaperDB 10).seats,
        s.id = sid → s.status = SeatStatus.AVAILABLE) := by
  refine ⟨?_, ?_, ?_⟩ <;> decide

/-- Claim C9 (amended) — for every booking whose status is `PENDING` and
whose expiry deadline has passed, the reaper's second sweep marks that
booking `FAILED`; every seat of such a booking that is not `BOOKED` is
returned to `AVAILABLE`, while `BOOKED` seats are left exactly as they are
(the release step never clobbers a `BOOKED` seat). -/
theorem spec_C9 (st : DBState) (now : Nat)
    (hnd : (st.bookings.map Booking.id).Nodup) :
    (∀ b ∈ st.bookings, bookingExpired now b = true →
      ∀ b2 ∈ (reaperSweep2 st now).bookings, b2.id = b.id →
        b2.status = BookingStatus.FAILED) ∧
    (∀ s ∈ st.seats, s.status = SeatStatus.BOOKED →
      s ∈ (reaperSweep2 st now).seats) ∧
    (∀ b ∈ st.bookings, bookingExpired now b = true →
      ∀ sid ∈ b.seatIds, ∀ s ∈ st.seats, s.id = sid →
        s.status ≠ SeatStatus.BOOKED →
        ∃ s2 ∈ (reaperSweep2 st now).seats, s2.id = sid ∧
          s2.status = SeatStatus.AVAILABLE) := by
  have hbs : ∀ b ∈ st.bookings, bookingExpired now b = true →
      b ∈ getExpiredPendingBookings st now :=
    fun b hb he => List.mem_filter.mpr ⟨hb, he⟩
  refine ⟨?_, ?_, ?_⟩
  · intro b hb he
    exact foldl_fails_members _ st b (hbs b hb he)
  · intro s hs hbooked
    have hSim : List.Forall₂ SeatSim st.seats (reaperSweep2 st now).seats := by
      unfold reaperSweep2
      refine foldl_SeatSim st.seats _ st ?_
      rw [List.forall₂_same]
      intro x _
      left
      rfl
    rcases forall₂_mem_left hSim s hs with ⟨c, hc, hsim⟩
    rcases hsim with h0 | ⟨hp, -⟩
    · rw [h0] at hc
      exact hc
    · rw [hp] at hbooked
      cases hbooked
  · intro b hb he sid hsid s hs hid hnb
    unfold reaperSweep2
    refine foldl_unlocks st.bookings st.seats
      (getExpiredPendingBookings st now) st rfl ?_ ?_ b (hbs b hb he)
      sid hsid s hs hid hnb
    · rw [List.forall₂_same]
      intro x _
      left
      rfl
    · intro b2 hb2
      rw [find?_id_self st.bookings b2 hnd (List.mem_filter.mp hb2).1]
      rfl

/-- Witness for the amended C9: in `reaperDB2` the expired pending booking 2
is transitioned to `FAILED` by the sweep at time 10. -/
theorem spec_C9_witness :
    (reaperDB2.bookings.map Booking.id).Nodup ∧
    ({ id := 2, showId := 0, userId := none, seatIds := [1],
       status := BookingStatus.FAILED, createdAt := 0,
       expiresAt := some 5 } : Booking).status = BookingStatus.FAILED :=
  ⟨by decide,
    (spec_C9 reaperDB2 10 (by decide)).1
      { id := 2, showId := 0, userId := none, seatIds := [1],
        status := BookingStatus.PENDING, createdAt := 0,
        expiresAt := some 5 }
      (by decide) (by decide)
      { id := 2, showId := 0, userId := none, seatIds := [1],
        status := BookingStatus.FAILED, createdAt := 0,
        expiresAt := some 5 }
      (by decide) rfl⟩

/-- Witness for C2: a concrete erroring call (a seat id that does not exist)
leaves the concrete database untouched. -/
theorem spec_C2_witness :
    (attemptBooking sampleDB 0 [9] none 50 false).1 =
      Except.error BookingError.INVALID_SEATS ∧
    (attemptBooking sampleDB 0 [9] none 50 false).2 = sampleDB :=
  ⟨rfl, spec_C2 sampleDB 0 [9] none 50 false
    BookingError.INVALID_SEATS rfl⟩

end Modex
